import Mathlib

/-!
Verification of the derivation/aggregation engine of the CS2 demo
extraction script (`scripts/03_extract_data.py`).

The Python code is shallowly embedded below.  Conventions:

* ticks and round numbers are machine integers in Python, embedded as `Int`
  (Python ints are unbounded, so no modular wrap is needed);
* Python `dict` records become Lean structures; the float-valued
  position/distance/duration fields are never consulted by any algorithm
  verified here and are omitted (floating point presentation only);
* Python `round(x, 1)` / `round(x, 2)` decimal presentation rounding on the
  derived ratio metrics is likewise a float-presentation step; the metrics are
  embedded as exact rationals (the zero-divisor guards, which are the
  algorithmic content, are kept verbatim);
* Python's `sorted(..., key=...)`/`list.sort` is a stable sort; it is embedded
  as a stable insertion sort, which is extensionally the same function
  (a stable sort of a list by a key is unique);
* mutation of dict fields is embedded by explicit state passing.
-/

/-- Source constant `TRADE_KILL_WINDOW_TICKS = 320` (about 5 seconds at 64 tick). -/
def TRADE_KILL_WINDOW_TICKS : Int := 320

/-- A kill record, as built by `_extract_kills`.  The float position and
distance fields are omitted (never read by the derivation algorithms). -/
structure Kill where
  kill_id : Nat
  tick : Int
  round_num : Int
  attacker_steamid : String
  attacker_name : String
  attacker_team : String
  victim_steamid : String
  victim_name : String
  victim_team : String
  weapon : String
  headshot : Bool
  penetrated : Bool
  noscope : Bool
  thrusmoke : Bool
  attackerblind : Bool
  assistedflash : Bool
  assister_steamid : String
  assister_name : String
  is_first_kill : Bool
  is_trade : Bool
  traded_kill_id : Option Nat
  trade_time_ticks : Option Int
deriving Repr, DecidableEq

/-- A round record, as built by `_extract_rounds` (float `duration_seconds`
omitted). -/
structure Round where
  round_num : Int
  start_tick : Int
  end_tick : Int
  winner : String
  reason : String
deriving Repr, DecidableEq

/-- A damage record, as built by `_extract_damages`. -/
structure Damage where
  tick : Int
  round_num : Int
  attacker_steamid : String
  attacker_name : String
  victim_steamid : String
  victim_name : String
  weapon : String
  damage_health : Int
  damage_armor : Int
  hitgroup : String
  health_remaining : Int
  armor_remaining : Int
deriving Repr, DecidableEq

/-- A player roster entry as built by `_extract_players`. -/
structure Player where
  steamid : String
  name : String
  team : String
deriving Repr, DecidableEq

/-- A clutch record as appended by `_detect_clutches`. -/
structure Clutch where
  round_num : Int
  player_steamid : String
  player_name : String
  player_team : String
  clutch_type : String
  opponents : Int
  won : Bool
  start_tick : Int
deriving Repr, DecidableEq

/-- A per-round stats record as built by `_calculate_round_stats`
(float `duration_seconds` omitted).  `Option` encodes the Python `None`
fields of the no-kill branch. -/
structure RoundStat where
  round_num : Int
  winner : String
  reason : String
  total_kills : Nat
  first_kill_tick : Option Int
  first_kill_attacker : Option String
  first_kill_attacker_steamid : Option String
  first_kill_attacker_team : Option String
  first_kill_victim : Option String
  first_kill_victim_steamid : Option String
  first_kill_weapon : Option String
  first_kill_team_won : Option Bool
deriving Repr, DecidableEq

/-- A per-player aggregate record as built by `_calculate_player_stats`.
Ratio metrics are exact rationals (source: floats rounded for presentation).
The source field `kd_ratio` is named `kd_value` here. -/
structure PlayerStats where
  steamid : String
  name : String
  team : String
  kills : Nat
  deaths : Nat
  assists : Nat
  kd_value : ℚ
  adr : ℚ
  kast : ℚ
  headshots : Nat
  hs_percentage : ℚ
  first_kills : Nat
  first_deaths : Nat
  fk_fd_diff : Int
  trade_kills : Nat
  flash_assists : Nat
  clutch_attempts : Nat
  clutch_wins : Nat
  clutch_rate : ℚ
  total_damage : Int
deriving Repr, DecidableEq

/-! ## Trade linker (`_add_trade_kills`) -/

/-- The backward scan of `_add_trade_kills` for one kill `k`: `rev` is the
already-processed part of the kill list, most recent first (Python's
`for j in range(i - 1, -1, -1)`).  Returns the linked kill's `kill_id` and the
tick difference when a qualifying candidate is found before a stop condition
fires. -/
def findTradeCandidate (k : Kill) : List Kill → Option (Nat × Int)
  | [] => none
  | prev :: rest =>
    if prev.round_num ≠ k.round_num then none
    else if TRADE_KILL_WINDOW_TICKS < k.tick - prev.tick then none
    else if prev.victim_team = k.attacker_team ∧ prev.attacker_steamid = k.victim_steamid then
      some (prev.kill_id, k.tick - prev.tick)
    else findTradeCandidate k rest

/-- Write the trade linkage fields on a kill (the three assignments guarded by
the match in `_add_trade_kills`); `none` leaves the kill unchanged. -/
def applyTrade (k : Kill) : Option (Nat × Int) → Kill
  | none => k
  | some (cid, dt) =>
    { k with is_trade := true, traded_kill_id := some cid, trade_time_ticks := some dt }

/-- Main loop of `_add_trade_kills`: `acc` holds the kills processed so far,
most recent first.  (The in-place Python update is safe to embed this way:
the backward scan reads only fields `applyTrade` never writes.) -/
def addTradeAux (acc : List Kill) : List Kill → List Kill
  | [] => acc.reverse
  | k :: rest => addTradeAux (applyTrade k (findTradeCandidate k acc) :: acc) rest

/-- The function `_add_trade_kills(kills)`. -/
def addTradeKills (kills : List Kill) : List Kill :=
  addTradeAux [] kills

/-- Reference form of the trade pass used in the proofs: each kill is
processed against the reversed original prefix before it. -/
def tradeMap (rev : List Kill) : List Kill → List Kill
  | [] => []
  | k :: rest => applyTrade k (findTradeCandidate k rev) :: tradeMap (k :: rev) rest

/-- The qualifying-candidate condition of the spec and of the inner match of
`_add_trade_kills`: same round, within the window, the earlier victim was the
avenger's teammate, and the avenged victim is that earlier attacker. -/
def qualifiesTrade (k c : Kill) : Prop :=
  c.round_num = k.round_num ∧ k.tick - c.tick ≤ TRADE_KILL_WINDOW_TICKS ∧
    c.victim_team = k.attacker_team ∧ c.attacker_steamid = k.victim_steamid

instance (k c : Kill) : Decidable (qualifiesTrade k c) := by
  unfold qualifiesTrade; infer_instance

/-! ## Round outcome summarizer (`_calculate_round_stats`) -/

/-- The `else` branch record of `_calculate_round_stats` (round without
kills): every first-kill field is `None`. -/
def emptyRoundStat (rnd : Round) : RoundStat :=
  { round_num := rnd.round_num, winner := rnd.winner, reason := rnd.reason,
    total_kills := 0, first_kill_tick := none, first_kill_attacker := none,
    first_kill_attacker_steamid := none, first_kill_attacker_team := none,
    first_kill_victim := none, first_kill_victim_steamid := none,
    first_kill_weapon := none, first_kill_team_won := none }

/-- The `if round_kills` branch record of `_calculate_round_stats`. -/
def fullRoundStat (rnd : Round) (fk : Kill) (total : Nat) : RoundStat :=
  { round_num := rnd.round_num, winner := rnd.winner, reason := rnd.reason,
    total_kills := total, first_kill_tick := some fk.tick,
    first_kill_attacker := some fk.attacker_name,
    first_kill_attacker_steamid := some fk.attacker_steamid,
    first_kill_attacker_team := some fk.attacker_team,
    first_kill_victim := some fk.victim_name,
    first_kill_victim_steamid := some fk.victim_steamid,
    first_kill_weapon := some fk.weapon,
    first_kill_team_won := some (decide (fk.attacker_team = rnd.winner)) }

/-- The mutation loop `for k in kills: if k["kill_id"] == ...: k["is_first_kill"] = True; break`. -/
def markFirstKill (kid : Nat) : List Kill → List Kill
  | [] => []
  | k :: rest =>
    if k.kill_id = kid then { k with is_first_kill := true } :: rest
    else k :: markFirstKill kid rest

/-- One iteration of the round loop of `_calculate_round_stats`; the state is
the stats accumulated so far together with the (mutated) kill list. -/
def roundStep (acc : List RoundStat × List Kill) (rnd : Round) :
    List RoundStat × List Kill :=
  match acc.2.filter (fun k => decide (k.round_num = rnd.round_num)) with
  | [] => (acc.1 ++ [emptyRoundStat rnd], acc.2)
  | fk :: rest =>
    (acc.1 ++ [fullRoundStat rnd fk (fk :: rest).length], markFirstKill fk.kill_id acc.2)

/-- The function `_calculate_round_stats(kills, rounds)`, returning the stats list and the
kill list after the `is_first_kill` marks. -/
def calculateRoundStats (kills : List Kill) (rounds : List Round) :
    List RoundStat × List Kill :=
  rounds.foldl roundStep ([], kills)

/-- Reference: the stat record a round produces, in terms of the original
(unmarked) kill list. -/
def roundStatOf (kills : List Kill) (rnd : Round) : RoundStat :=
  match kills.filter (fun k => decide (k.round_num = rnd.round_num)) with
  | [] => emptyRoundStat rnd
  | fk :: rest => fullRoundStat rnd fk (fk :: rest).length

/-- Reference: the `kill_id`s the summarizer marks — the head of each round's
kill filter. -/
def firstKillIds (kills : List Kill) (rounds : List Round) : List Nat :=
  rounds.filterMap fun rnd =>
    ((kills.filter (fun k => decide (k.round_num = rnd.round_num))).head?).map (·.kill_id)

/-- Reference: set `is_first_kill` on every kill whose id is in `L`. -/
def setFlags (L : List Nat) (k : Kill) : Kill :=
  if k.kill_id ∈ L then { k with is_first_kill := true } else k

/-! ## Clutch detector (`_detect_clutches`) -/

/-- Stable insertion by tick: the embedding of Python's stable
`sorted(..., key=lambda x: x["tick"])` (equal ticks keep list order). -/
def insertByTick (k : Kill) : List Kill → List Kill
  | [] => [k]
  | x :: xs => if k.tick ≤ x.tick then k :: x :: xs else x :: insertByTick k xs

/-- Stable sort by tick (see `insertByTick`). -/
def sortKillsByTick : List Kill → List Kill
  | [] => []
  | k :: rest => insertByTick k (sortKillsByTick rest)

/-- The list `round_kills = sorted([k for k in kills if k["round_num"] == round_num], key=tick)`. -/
def sortedRoundKills (kills : List Kill) (rnd : Round) : List Kill :=
  sortKillsByTick (kills.filter (fun k => decide (k.round_num = rnd.round_num)))

/-- The local simulation state of `_detect_clutches`.  `clutch_player` keeps
the kill whose attacker fields Python stores in `clutch_player` /
`clutch_player_name` (both are set together from one kill). -/
structure ClutchState where
  ct_alive_count : Int
  t_alive_count : Int
  clutch_started : Bool
  clutch_team : String
  clutch_vs : Int
  clutch_start_tick : Int
  clutch_player : Option Kill
deriving Repr, DecidableEq

/-- Initial state `ct_alive_count = 5; t_alive_count = 5; clutch_started = False; ...`. -/
def initClutchState : ClutchState :=
  { ct_alive_count := 5, t_alive_count := 5, clutch_started := false,
    clutch_team := "", clutch_vs := 0, clutch_start_tick := 0, clutch_player := none }

/-- One iteration of `for k in round_kills` in `_detect_clutches`:
decrement the victim's team count, then on the first 1-vs-X transition fix
team, opponents, start tick and search `round_kills` for the first kill at or
after that tick whose attacker is on the clutch team. -/
def clutchStep (round_kills : List Kill) (st : ClutchState) (k : Kill) : ClutchState :=
  let st1 :=
    if k.victim_team = "CT" then { st with ct_alive_count := st.ct_alive_count - 1 }
    else if k.victim_team = "TERRORIST" then { st with t_alive_count := st.t_alive_count - 1 }
    else st
  if st1.clutch_started then st1
  else if st1.ct_alive_count = 1 ∧ 1 ≤ st1.t_alive_count then
    { st1 with
      clutch_started := true, clutch_team := "CT",
      clutch_vs := st1.t_alive_count, clutch_start_tick := k.tick,
      clutch_player :=
        round_kills.find? (fun kl => decide (kl.attacker_team = "CT" ∧ k.tick ≤ kl.tick)) }
  else if st1.t_alive_count = 1 ∧ 1 ≤ st1.ct_alive_count then
    { st1 with
      clutch_started := true, clutch_team := "TERRORIST",
      clutch_vs := st1.ct_alive_count, clutch_start_tick := k.tick,
      clutch_player :=
        round_kills.find? (fun kl => decide (kl.attacker_team = "TERRORIST" ∧ k.tick ≤ kl.tick)) }
  else st1

/-- The whole per-round simulation loop over the sorted round kills. -/
def simulateRound (l : List Kill) : ClutchState :=
  l.foldl (clutchStep l) initClutchState

/-- The per-round body of `_detect_clutches`: skip rounds with fewer than two
kills, simulate, and append a record only when a clutch started, a clutch
player was found with a non-empty steamid (Python truthiness of the steamid
string), and `clutch_vs >= 2`. -/
def clutchForRound (kills : List Kill) (rnd : Round) : Option Clutch :=
  let round_kills := sortedRoundKills kills rnd
  if round_kills.length < 2 then none
  else
    let st := simulateRound round_kills
    match st.clutch_player with
    | none => none
    | some kl =>
      if st.clutch_started = true ∧ kl.attacker_steamid ≠ "" ∧ 2 ≤ st.clutch_vs then
        some { round_num := rnd.round_num, player_steamid := kl.attacker_steamid,
               player_name := kl.attacker_name, player_team := st.clutch_team,
               clutch_type := "1v" ++ toString st.clutch_vs,
               opponents := st.clutch_vs,
               won := decide (rnd.winner = st.clutch_team),
               start_tick := st.clutch_start_tick }
      else none

/-- The function `_detect_clutches(kills, rounds)`. -/
def detectClutches (kills : List Kill) (rounds : List Round) : List Clutch :=
  rounds.filterMap (clutchForRound kills)

/-- CT alive count after the first `n` kills of `l`, starting from `c` (the
roster size 5 in the code). -/
def ctAfter (c : Int) (l : List Kill) (n : Nat) : Int :=
  c - ((l.take n).countP (fun k => decide (k.victim_team = "CT")) : Int)

/-- T alive count after the first `n` kills of `l`, starting from `t`. -/
def tAfter (t : Int) (l : List Kill) (n : Nat) : Int :=
  t - ((l.take n).countP (fun k => decide (k.victim_team = "TERRORIST")) : Int)

/-- The 1-vs-X transition condition checked after processing kill `n`
(0-based): one team at exactly 1 while the other is at least 1. -/
def transAt (c t : Int) (l : List Kill) (n : Nat) : Prop :=
  (ctAfter c l (n+1) = 1 ∧ 1 ≤ tAfter t l (n+1)) ∨
    (tAfter t l (n+1) = 1 ∧ 1 ≤ ctAfter c l (n+1))

instance (c t : Int) (l : List Kill) (n : Nat) : Decidable (transAt c t l n) := by
  unfold transAt; infer_instance

/-! ## Player statistics aggregator (`_calculate_player_stats`) -/

/-- The set `rounds_with_contribution` built by the KAST loops of
`_calculate_player_stats` for one player: rounds with a kill, rounds with an
assist, rounds in `rounds` without a death, and death rounds followed (same
round, strictly later, within the window) by any kill whose attacker team is
the player's roster team.  The Python code accumulates a `set`; the unions
below build the same set. -/
def kastRounds (team steamid : String) (kills : List Kill) (rounds : List Round) :
    Finset Int :=
  let player_kills := kills.filter (fun k => decide (k.attacker_steamid = steamid))
  let player_assists := kills.filter (fun k => decide (k.assister_steamid = steamid))
  let player_deaths := kills.filter (fun k => decide (k.victim_steamid = steamid))
  let death_rounds : Finset Int := (player_deaths.map (·.round_num)).toFinset
  let survived :=
    ((rounds.filter (fun rnd => decide (rnd.round_num ∉ death_rounds))).map (·.round_num)).toFinset
  let traded :=
    ((player_deaths.filter (fun death =>
        kills.any (fun kl => decide (kl.round_num = death.round_num ∧ death.tick < kl.tick ∧
          kl.tick - death.tick ≤ TRADE_KILL_WINDOW_TICKS ∧ kl.attacker_team = team)))).map
      (·.round_num)).toFinset
  (player_kills.map (·.round_num)).toFinset ∪ (player_assists.map (·.round_num)).toFinset ∪
    survived ∪ traded

/-- Modelled from the spec (claim wording, for comparison with `kastRounds`):
the spec's fourth KAST condition additionally requires the avenging kill's
victim to be the player's killer (`kl.victim_steamid = death.attacker_steamid`),
which the code does not check. -/
def kastClaimRounds (team steamid : String) (kills : List Kill) (rounds : List Round) :
    Finset Int :=
  let player_kills := kills.filter (fun k => decide (k.attacker_steamid = steamid))
  let player_assists := kills.filter (fun k => decide (k.assister_steamid = steamid))
  let player_deaths := kills.filter (fun k => decide (k.victim_steamid = steamid))
  let death_rounds : Finset Int := (player_deaths.map (·.round_num)).toFinset
  let survived :=
    ((rounds.filter (fun rnd => decide (rnd.round_num ∉ death_rounds))).map (·.round_num)).toFinset
  let traded :=
    ((player_deaths.filter (fun death =>
        kills.any (fun kl => decide (kl.round_num = death.round_num ∧ death.tick < kl.tick ∧
          kl.tick - death.tick ≤ TRADE_KILL_WINDOW_TICKS ∧ kl.attacker_team = team ∧
          kl.victim_steamid = death.attacker_steamid)))).map
      (·.round_num)).toFinset
  (player_kills.map (·.round_num)).toFinset ∪ (player_assists.map (·.round_num)).toFinset ∪
    survived ∪ traded

/-- The per-player body of `_calculate_player_stats` (ratios exact, see file
header; every division is guarded exactly as in the source). -/
def playerStatFor (kills : List Kill) (damages : List Damage) (rounds : List Round)
    (clutches : List Clutch) (player : Player) : PlayerStats :=
  let steamid := player.steamid
  let team := player.team
  let player_kills := kills.filter (fun kl => decide (kl.attacker_steamid = steamid))
  let player_deaths := kills.filter (fun kl => decide (kl.victim_steamid = steamid))
  let player_assists := kills.filter (fun kl => decide (kl.assister_steamid = steamid))
  let k := player_kills.length
  let d := player_deaths.length
  let a := player_assists.length
  let player_damage := damages.filter (fun dmg => decide (dmg.attacker_steamid = steamid))
  let total_damage : Int := (player_damage.map (·.damage_health)).sum
  let num_rounds := rounds.length
  let adr : ℚ := if 0 < num_rounds then (total_damage : ℚ) / num_rounds else 0
  let headshots := player_kills.countP (·.headshot)
  let hs_pct : ℚ := if 0 < k then (headshots : ℚ) / k * 100 else 0
  let trade_kills := player_kills.countP (·.is_trade)
  let first_kills := player_kills.countP (·.is_first_kill)
  let first_deaths := player_deaths.countP (·.is_first_kill)
  let player_clutches := clutches.filter (fun c => decide (c.player_steamid = steamid))
  let clutch_attempts := player_clutches.length
  let clutch_wins := player_clutches.countP (·.won)
  let kastCard := (kastRounds team steamid kills rounds).card
  let kast : ℚ := if 0 < num_rounds then (kastCard : ℚ) / num_rounds * 100 else 0
  let kd : ℚ := if 0 < d then (k : ℚ) / d else (k : ℚ)
  let flash_assists :=
    kills.countP (fun kl => decide (kl.assister_steamid = steamid ∧ kl.assistedflash = true))
  { steamid := steamid, name := player.name, team := team,
    kills := k, deaths := d, assists := a,
    kd_value := kd, adr := adr, kast := kast,
    headshots := headshots, hs_percentage := hs_pct,
    first_kills := first_kills, first_deaths := first_deaths,
    fk_fd_diff := (first_kills : Int) - (first_deaths : Int),
    trade_kills := trade_kills, flash_assists := flash_assists,
    clutch_attempts := clutch_attempts, clutch_wins := clutch_wins,
    clutch_rate := if 0 < clutch_attempts then (clutch_wins : ℚ) / clutch_attempts * 100 else 0,
    total_damage := total_damage }

/-- Stable descending insertion by `adr`: the embedding of Python's stable
`player_stats.sort(key=lambda x: x["adr"], reverse=True)`. -/
def insertByAdr (s : PlayerStats) : List PlayerStats → List PlayerStats
  | [] => [s]
  | x :: xs => if x.adr ≤ s.adr then s :: x :: xs else x :: insertByAdr s xs

/-- Stable descending sort by `adr` (see `insertByAdr`). -/
def sortByAdrDesc : List PlayerStats → List PlayerStats
  | [] => []
  | s :: rest => insertByAdr s (sortByAdrDesc rest)

/-- The function `_calculate_player_stats(players, kills, damages, rounds, clutches)`:
with zero rounds the function returns `[]` immediately; otherwise one record
per roster entry, sorted by descending ADR. -/
def calculatePlayerStats (players : List Player) (kills : List Kill)
    (damages : List Damage) (rounds : List Round) (clutches : List Clutch) :
    List PlayerStats :=
  if rounds.length = 0 then []
  else sortByAdrDesc (players.map (playerStatFor kills damages rounds clutches))

/-! ## Lemmas: trade linker -/

/-- The fields of a kill that the backward scan of `_add_trade_kills` reads. -/
def scanEq (a b : Kill) : Prop :=
  a.kill_id = b.kill_id ∧ a.tick = b.tick ∧ a.round_num = b.round_num ∧
    a.victim_team = b.victim_team ∧ a.attacker_steamid = b.attacker_steamid

theorem scanEq_applyTrade (k : Kill) (o : Option (Nat × Int)) : scanEq (applyTrade k o) k := by
  cases o with
  | none => exact ⟨rfl, rfl, rfl, rfl, rfl⟩
  | some p => exact ⟨rfl, rfl, rfl, rfl, rfl⟩

theorem findTradeCandidate_congr (k : Kill) :
    ∀ {l₁ l₂ : List Kill}, List.Forall₂ scanEq l₁ l₂ →
      findTradeCandidate k l₁ = findTradeCandidate k l₂ := by
  intro l₁ l₂ h
  induction h with
  | nil => rfl
  | cons hab _ ih =>
    obtain ⟨h1, h2, h3, h4, h5⟩ := hab
    simp only [findTradeCandidate, h1, h2, h3, h4, h5, ih]

theorem addTradeAux_eq_tradeMap :
    ∀ (l acc₁ acc₂ : List Kill), List.Forall₂ scanEq acc₁ acc₂ →
      addTradeAux acc₁ l = acc₁.reverse ++ tradeMap acc₂ l := by
  intro l
  induction l with
  | nil => intro acc₁ acc₂ _; simp [addTradeAux, tradeMap]
  | cons k rest ih =>
    intro acc₁ acc₂ h
    have hftc : findTradeCandidate k acc₁ = findTradeCandidate k acc₂ :=
      findTradeCandidate_congr k h
    have h' : List.Forall₂ scanEq (applyTrade k (findTradeCandidate k acc₁) :: acc₁)
        (k :: acc₂) := List.Forall₂.cons (scanEq_applyTrade k _) h
    show addTradeAux (applyTrade k (findTradeCandidate k acc₁) :: acc₁) rest = _
    rw [ih _ (k :: acc₂) h']
    simp [tradeMap, hftc, List.reverse_cons, List.append_assoc]

theorem addTradeKills_eq_tradeMap (kills : List Kill) :
    addTradeKills kills = tradeMap [] kills := by
  simpa [addTradeKills] using addTradeAux_eq_tradeMap kills [] [] List.Forall₂.nil

theorem tradeMap_length (rev l : List Kill) : (tradeMap rev l).length = l.length := by
  induction l generalizing rev with
  | nil => rfl
  | cons k rest ih => simp [tradeMap, ih]

theorem addTradeKills_length (kills : List Kill) :
    (addTradeKills kills).length = kills.length := by
  rw [addTradeKills_eq_tradeMap, tradeMap_length]

theorem tradeMap_getElem? (l : List Kill) :
    ∀ (rev : List Kill) (i : Nat) (K : Kill), l[i]? = some K →
      (tradeMap rev l)[i]? =
        some (applyTrade K (findTradeCandidate K ((l.take i).reverse ++ rev))) := by
  induction l with
  | nil => intro rev i K hK; simp at hK
  | cons k rest ih =>
    intro rev i K hK
    cases i with
    | zero =>
      simp only [List.getElem?_cons_zero, Option.some.injEq] at hK
      subst hK
      simp [tradeMap]
    | succ j =>
      simp only [List.getElem?_cons_succ] at hK
      have := ih (k :: rev) j K hK
      simp only [tradeMap, List.getElem?_cons_succ, List.take_succ_cons, List.reverse_cons,
        List.append_assoc, List.singleton_append] at this ⊢
      exact this

theorem findTradeCandidate_eq_find? (k : Kill) :
    ∀ (cs : List Kill),
      cs.Pairwise (fun a b => b.tick ≤ a.tick ∧ b.round_num ≤ a.round_num) →
      (∀ c ∈ cs, c.tick ≤ k.tick ∧ c.round_num ≤ k.round_num) →
      findTradeCandidate k cs =
        (cs.find? (fun c => decide (qualifiesTrade k c))).map
          (fun c => (c.kill_id, k.tick - c.tick)) := by
  intro cs
  induction cs with
  | nil => intro _ _; rfl
  | cons c rest ih =>
    intro hpair hK
    have hcrest := (List.pairwise_cons.mp hpair).1
    have hrest := (List.pairwise_cons.mp hpair).2
    have hcK := hK c (List.mem_cons_self c rest)
    by_cases hrn : c.round_num ≠ k.round_num
    · have hlt : c.round_num < k.round_num := lt_of_le_of_ne hcK.2 hrn
      have hnone : rest.find? (fun x => decide (qualifiesTrade k x)) = none := by
        refine List.find?_eq_none.mpr ?_
        intro d hd
        have : d.round_num ≤ c.round_num := (hcrest d hd).2
        simp only [decide_eq_true_eq]
        intro hq
        exact absurd hq.1 (by omega)
      have hc : ¬ qualifiesTrade k c := fun hq => hrn hq.1
      rw [List.find?_cons_of_neg _ (by simpa using hc), hnone]
      simp [findTradeCandidate, hrn]
    · push_neg at hrn
      by_cases hw : TRADE_KILL_WINDOW_TICKS < k.tick - c.tick
      · have hnone : rest.find? (fun x => decide (qualifiesTrade k x)) = none := by
          refine List.find?_eq_none.mpr ?_
          intro d hd
          have : d.tick ≤ c.tick := (hcrest d hd).1
          simp only [decide_eq_true_eq]
          intro hq
          exact absurd hq.2.1 (by omega)
        have hc : ¬ qualifiesTrade k c := fun hq => absurd hq.2.1 (by omega)
        rw [List.find?_cons_of_neg _ (by simpa using hc), hnone]
        simp [findTradeCandidate, hrn, hw]
      · by_cases hm : c.victim_team = k.attacker_team ∧ c.attacker_steamid = k.victim_steamid
        · have hq : qualifiesTrade k c := ⟨hrn, le_of_not_lt hw, hm.1, hm.2⟩
          rw [List.find?_cons_of_pos _ (by simpa using hq)]
          simp [findTradeCandidate, hrn, hw, hm]
        · have hq : ¬ qualifiesTrade k c := fun hq => hm ⟨hq.2.2.1, hq.2.2.2⟩
          rw [List.find?_cons_of_neg _ (by simpa using hq)]
          rw [← ih hrest (fun d hd => hK d (List.mem_cons_of_mem c hd))]
          simp [findTradeCandidate, hrn, hw, hm]

theorem rel_take_getElem {R : Kill → Kill → Prop} {kills : List Kill}
    (hsort : kills.Pairwise R) {i : Nat} (hi : i < kills.length) :
    ∀ c ∈ kills.take i, R c (kills.get ⟨i, hi⟩) := by
  intro c hc
  obtain ⟨j, hj, hcj⟩ := List.mem_iff_getElem.mp hc
  have hj' : j < i := by
    have := hj
    rw [List.length_take] at this
    omega
  have hjk : j < kills.length := Nat.lt_trans hj' hi
  have : (kills.take i)[j] = kills[j] := List.getElem_take kills
  rw [this] at hcj
  subst hcj
  exact List.pairwise_iff_getElem.mp hsort j i hjk hi hj'

/-- C1.  For every kill `K` (position `i`), the Trade Linker marks `K` as a
trade iff some earlier kill `C` of the same round lies within the 320-tick
window with `C.victim_team = K.attacker_team` and
`C.attacker_steamid = K.victim_steamid`; the most recent qualifying `C`
(the first found scanning backward) is linked, with
`traded_kill_id = C.kill_id` and `trade_time_ticks = K.tick − C.tick`
(so a candidate at exactly window distance is linked, one beyond it is not);
kills with no qualifying candidate keep their default
`is_trade = false`, `traded_kill_id = none`, `trade_time_ticks = none`.
Hypotheses: the extractor emits kills in chronological order with
non-decreasing round numbers and default trade fields. -/
theorem trade_linker_marks_iff_qualifying_candidate
    (kills : List Kill)
    (hsort : kills.Pairwise (fun a b => a.tick ≤ b.tick ∧ a.round_num ≤ b.round_num))
    (hdefault : ∀ k ∈ kills, k.is_trade = false ∧ k.traded_kill_id = none ∧
      k.trade_time_ticks = none)
    (i : Nat) (K O : Kill) (hK : kills[i]? = some K)
    (hO : (addTradeKills kills)[i]? = some O) :
    (O.is_trade = true ↔ ∃ c ∈ kills.take i, qualifiesTrade K c) ∧
    (∀ c, ((kills.take i).reverse).find? (fun x => decide (qualifiesTrade K x)) = some c →
      O.is_trade = true ∧ O.traded_kill_id = some c.kill_id ∧
        O.trade_time_ticks = some (K.tick - c.tick)) ∧
    (((kills.take i).reverse).find? (fun x => decide (qualifiesTrade K x)) = none →
      O.is_trade = false ∧ O.traded_kill_id = none ∧ O.trade_time_ticks = none) := by
  obtain ⟨hi, hKi⟩ := List.getElem?_eq_some.mp hK
  obtain ⟨hi', hOi⟩ := List.getElem?_eq_some.mp hO
  have hlen := addTradeKills_length kills
  have hOval : O = applyTrade K (findTradeCandidate K ((kills.take i).reverse ++ [])) := by
    have h := tradeMap_getElem? kills [] i K hK
    rw [← addTradeKills_eq_tradeMap, hO] at h
    exact (Option.some.injEq _ _ ▸ h)
  rw [List.append_nil] at hOval
  -- the reversed prefix satisfies the monotonicity conditions of the scan
  have hpair : ((kills.take i).reverse).Pairwise
      (fun a b => b.tick ≤ a.tick ∧ b.round_num ≤ a.round_num) := by
    rw [List.pairwise_reverse]
    exact List.Pairwise.sublist (List.take_sublist i kills) hsort
  have hKrel : ∀ c ∈ (kills.take i).reverse, c.tick ≤ K.tick ∧ c.round_num ≤ K.round_num := by
    intro c hc
    rw [List.mem_reverse] at hc
    have := rel_take_getElem hsort hi c hc
    simpa [List.get_eq_getElem, hKi] using this
  have hftc := findTradeCandidate_eq_find? K ((kills.take i).reverse) hpair hKrel
  rw [hftc] at hOval
  cases hfind : ((kills.take i).reverse).find? (fun x => decide (qualifiesTrade K x)) with
  | none =>
    rw [hfind] at hOval
    simp only [Option.map_none'] at hOval
    have hKdef := hdefault K (by rw [← hKi]; exact List.getElem_mem hi)
    have hOK : O = K := by simpa [applyTrade] using hOval
    refine ⟨?_, ?_, ?_⟩
    · rw [hOK, hKdef.1]
      simp only [Bool.false_eq_true, false_iff]
      rintro ⟨c, hc, hq⟩
      have := List.find?_eq_none.mp hfind c (List.mem_reverse.mpr hc)
      simp [hq] at this
    · intro c hc; exact Option.noConfusion hc
    · intro _; rw [hOK]; exact hKdef
  | some c =>
    rw [hfind] at hOval
    simp only [Option.map_some'] at hOval
    have hmem : c ∈ kills.take i := List.mem_reverse.mp (List.mem_of_find?_eq_some hfind)
    have hq : qualifiesTrade K c := by
      have := List.find?_some hfind
      simpa using this
    refine ⟨?_, ?_, ?_⟩
    · simp only [hOval, applyTrade, true_iff]
      exact ⟨c, hmem, hq⟩
    · intro c' hc'
      injection hc' with hcc
      subst hcc
      simp [hOval, applyTrade]
    · intro hc'; exact Option.noConfusion hc'

/-- A kill literal with only the fields relevant to the verified algorithms;
used by the concrete witness/counterexample inputs below. -/
def mkKill (kid : Nat) (tick rnum : Int) (ateam asid vteam vsid : String) : Kill :=
  { kill_id := kid, tick := tick, round_num := rnum,
    attacker_steamid := asid, attacker_name := asid, attacker_team := ateam,
    victim_steamid := vsid, victim_name := vsid, victim_team := vteam,
    weapon := "ak47", headshot := false, penetrated := false, noscope := false,
    thrusmoke := false, attackerblind := false, assistedflash := false,
    assister_steamid := "", assister_name := "",
    is_first_kill := false, is_trade := false, traded_kill_id := none,
    trade_time_ticks := none }

/-- Witness input for C1: round 1 has a revenge kill at exactly window
distance (320 ticks); round 2 has the same pattern at distance 321. -/
def tradeWitnessKills : List Kill :=
  [ mkKill 0 0 1 "TERRORIST" "E" "CT" "P",
    mkKill 1 320 1 "CT" "Q" "TERRORIST" "E",
    mkKill 2 1000 2 "TERRORIST" "E" "CT" "P",
    mkKill 3 1321 2 "CT" "Q" "TERRORIST" "E" ]

/-- Witness for C1 at the window boundary: the kill 320 ticks after its
teammate's death is linked to it, and the kill 321 ticks after its teammate's
death in round 2 keeps the defaults. -/
theorem trade_linker_witness :
    ((addTradeKills tradeWitnessKills)[1]? = some (applyTrade (mkKill 1 320 1 "CT" "Q" "TERRORIST" "E") (some (0, 320))) ∧
      (applyTrade (mkKill 1 320 1 "CT" "Q" "TERRORIST" "E") (some (0, 320))).is_trade = true) ∧
    ((addTradeKills tradeWitnessKills)[3]? = some (mkKill 3 1321 2 "CT" "Q" "TERRORIST" "E") ∧
      (mkKill 3 1321 2 "CT" "Q" "TERRORIST" "E").is_trade = false) := by
  have h1 := trade_linker_marks_iff_qualifying_candidate tradeWitnessKills
    (by decide) (by decide) 1
    (mkKill 1 320 1 "CT" "Q" "TERRORIST" "E")
    (applyTrade (mkKill 1 320 1 "CT" "Q" "TERRORIST" "E") (some (0, 320)))
    (by decide) (by decide)
  have h3 := trade_linker_marks_iff_qualifying_candidate tradeWitnessKills
    (by decide) (by decide) 3
    (mkKill 3 1321 2 "CT" "Q" "TERRORIST" "E")
    (mkKill 3 1321 2 "CT" "Q" "TERRORIST" "E")
    (by decide) (by decide)
  refine ⟨⟨by decide, (h1.2.1 (mkKill 0 0 1 "TERRORIST" "E" "CT" "P") (by decide)).1⟩,
    ⟨by decide, (h3.2.2 (by decide)).1⟩⟩

/-! ## Lemmas: round outcome summarizer -/

theorem setFlags_kill_id (L : List Nat) (k : Kill) : (setFlags L k).kill_id = k.kill_id := by
  unfold setFlags; split <;> rfl

theorem setFlags_tick (L : List Nat) (k : Kill) : (setFlags L k).tick = k.tick := by
  unfold setFlags; split <;> rfl

theorem setFlags_round_num (L : List Nat) (k : Kill) :
    (setFlags L k).round_num = k.round_num := by
  unfold setFlags; split <;> rfl

theorem setFlags_is_first_kill (L : List Nat) (k : Kill) :
    (setFlags L k).is_first_kill = (decide (k.kill_id ∈ L) || k.is_first_kill) := by
  unfold setFlags
  split
  · next h => simp [h]
  · next h => simp [h]

theorem setFlags_nil (k : Kill) : setFlags [] k = k := by
  unfold setFlags; simp

theorem setFlags_congr (L₁ L₂ : List Nat) (h : ∀ x, x ∈ L₁ ↔ x ∈ L₂) :
    setFlags L₁ = setFlags L₂ := by
  funext k
  unfold setFlags
  by_cases hk : k.kill_id ∈ L₁
  · rw [if_pos hk, if_pos ((h k.kill_id).mp hk)]
  · rw [if_neg hk, if_neg (fun hc => hk ((h k.kill_id).mpr hc))]

theorem filter_map_setFlags (L : List Nat) (ks : List Kill) (r : Int) :
    (ks.map (setFlags L)).filter (fun k => decide (k.round_num = r)) =
      (ks.filter (fun k => decide (k.round_num = r))).map (setFlags L) := by
  rw [List.filter_map]
  have hp : ((fun k => decide (k.round_num = r)) ∘ setFlags L) =
      (fun (k : Kill) => decide (k.round_num = r)) := by
    funext k
    simp [Function.comp, setFlags_round_num]
  rw [hp]

theorem setFlags_cons_of_ne (kid : Nat) (L : List Nat) (x : Kill) (hx : x.kill_id ≠ kid) :
    setFlags (kid :: L) x = setFlags L x := by
  unfold setFlags
  by_cases hL : x.kill_id ∈ L
  · rw [if_pos hL, if_pos (List.mem_cons_of_mem _ hL)]
  · rw [if_neg hL, if_neg (by simp [hx, hL])]

theorem markFirstKill_map_setFlags (kid : Nat) (L : List Nat) :
    ∀ (ks : List Kill), (ks.map (·.kill_id)).Nodup →
      markFirstKill kid (ks.map (setFlags L)) = ks.map (setFlags (kid :: L)) := by
  intro ks
  induction ks with
  | nil => intro _; rfl
  | cons k rest ih =>
    intro hnodup
    have hnodup' : (rest.map (·.kill_id)).Nodup := (List.nodup_cons.mp hnodup).2
    have hknot : k.kill_id ∉ rest.map (·.kill_id) := (List.nodup_cons.mp hnodup).1
    by_cases hk : k.kill_id = kid
    · have h1 : markFirstKill kid (List.map (setFlags L) (k :: rest)) =
          { setFlags L k with is_first_kill := true } :: List.map (setFlags L) rest := by
        simp only [List.map_cons, markFirstKill, setFlags_kill_id]
        rw [if_pos hk]
      have hhead : ({ setFlags L k with is_first_kill := true } : Kill) =
          setFlags (kid :: L) k := by
        unfold setFlags
        by_cases hL : k.kill_id ∈ L
        · rw [if_pos hL, if_pos (List.mem_cons_of_mem _ hL)]
        · rw [if_neg hL, if_pos (by simp [hk])]
      have htail : List.map (setFlags L) rest = List.map (setFlags (kid :: L)) rest := by
        refine List.map_congr_left ?_
        intro x hx
        refine (setFlags_cons_of_ne kid L x ?_).symm
        intro hxk
        exact hknot (by rw [hk, ← hxk]; exact List.mem_map_of_mem (·.kill_id) hx)
      rw [h1, hhead, htail, List.map_cons]
    · have h1 : markFirstKill kid (List.map (setFlags L) (k :: rest)) =
          setFlags L k :: markFirstKill kid (List.map (setFlags L) rest) := by
        simp only [List.map_cons, markFirstKill, setFlags_kill_id]
        rw [if_neg hk]
      rw [h1, ih hnodup', List.map_cons, setFlags_cons_of_ne kid L k hk]

theorem roundStatOf_map_setFlags (L : List Nat) (ks : List Kill) (rnd : Round) :
    roundStatOf (ks.map (setFlags L)) rnd = roundStatOf ks rnd := by
  unfold roundStatOf
  rw [filter_map_setFlags]
  cases h : ks.filter (fun k => decide (k.round_num = rnd.round_num)) with
  | nil => rfl
  | cons fk rest =>
    simp only [List.map_cons]
    unfold fullRoundStat setFlags
    split <;> simp

theorem firstKillIds_cons (ks : List Kill) (rnd : Round) (rs : List Round) :
    firstKillIds ks (rnd :: rs) =
      (((ks.filter (fun k => decide (k.round_num = rnd.round_num))).head?).map (·.kill_id)).toList
        ++ firstKillIds ks rs := by
  unfold firstKillIds
  rw [List.filterMap_cons]
  cases h : ((ks.filter (fun k => decide (k.round_num = rnd.round_num))).head?).map (·.kill_id) with
  | none => rfl
  | some kid => rfl

theorem calcRS_fold (ks : List Kill) (hnodup : (ks.map (·.kill_id)).Nodup) :
    ∀ (rounds : List Round) (ss : List RoundStat) (L : List Nat),
      List.foldl roundStep (ss, ks.map (setFlags L)) rounds =
        (ss ++ rounds.map (roundStatOf ks), ks.map (setFlags (firstKillIds ks rounds ++ L))) := by
  intro rounds
  induction rounds with
  | nil =>
    intro ss L
    simp [firstKillIds]
  | cons rnd rs ih =>
    intro ss L
    rw [List.foldl_cons]
    have hstep : roundStep (ss, ks.map (setFlags L)) rnd =
        match h : ks.filter (fun k => decide (k.round_num = rnd.round_num)) with
        | [] => (ss ++ [emptyRoundStat rnd], ks.map (setFlags L))
        | fk :: rest =>
          (ss ++ [fullRoundStat rnd fk (fk :: rest).length], ks.map (setFlags (fk.kill_id :: L))) := by
      unfold roundStep
      simp only [filter_map_setFlags]
      cases h : ks.filter (fun k => decide (k.round_num = rnd.round_num)) with
      | nil => simp
      | cons fk rest =>
        simp only [List.map_cons]
        rw [markFirstKill_map_setFlags _ _ _ hnodup, setFlags_kill_id]
        congr 2
        unfold fullRoundStat setFlags
        split <;> simp
    rw [hstep]
    cases h : ks.filter (fun k => decide (k.round_num = rnd.round_num)) with
    | nil =>
      rw [ih (ss ++ [emptyRoundStat rnd]) L]
      have hfro : roundStatOf ks rnd = emptyRoundStat rnd := by
        unfold roundStatOf; rw [h]
      rw [firstKillIds_cons, h]
      simp [hfro]
    | cons fk rest =>
      rw [ih (ss ++ [fullRoundStat rnd fk (fk :: rest).length]) (fk.kill_id :: L)]
      have hfro : roundStatOf ks rnd = fullRoundStat rnd fk (fk :: rest).length := by
        unfold roundStatOf; rw [h]
      rw [firstKillIds_cons, h]
      have hcongr : setFlags (firstKillIds ks rs ++ (fk.kill_id :: L)) =
          setFlags (((some fk).map (·.kill_id)).toList ++ firstKillIds ks rs ++ L) := by
        refine setFlags_congr _ _ ?_
        intro x
        simp [List.mem_append, List.mem_cons]
        tauto
      simp only [List.head?_cons] at *
      rw [hcongr]
      simp [hfro, List.append_assoc]

theorem calcRS_eq (ks : List Kill) (rounds : List Round)
    (hnodup : (ks.map (·.kill_id)).Nodup) :
    calculateRoundStats ks rounds =
      (rounds.map (roundStatOf ks), ks.map (setFlags (firstKillIds ks rounds))) := by
  have h0 : ks.map (setFlags []) = ks := by
    have h1 : ∀ k ∈ ks, setFlags [] k = (fun (x : Kill) => x) k := fun k _ => setFlags_nil k
    rw [List.map_congr_left h1, List.map_id']
  unfold calculateRoundStats
  conv_lhs => rw [← h0]
  rw [calcRS_fold ks hnodup rounds [] []]
  simp

theorem mem_of_head?_some {α : Type} {l : List α} {a : α} (h : l.head? = some a) : a ∈ l := by
  cases l with
  | nil => cases h
  | cons x xs =>
    rw [List.head?_cons, Option.some.injEq] at h
    rw [← h]
    exact List.mem_cons_self x xs

/-- C4.  For every round: if at least one kill carries the round's
`round_num`, the summarizer's stat record is `fullRoundStat` of the head of
that round's kill filter — a kill of minimum tick among the round's kills —
reporting its tick, attacker, victim, weapon and
`first_kill_team_won = (attacker_team == winner)`, and the final kill list
contains that kill with `is_first_kill = true`; if the round has no kills the
stat record is `emptyRoundStat` (every first-kill field `none`).
Hypotheses: kills are emitted in chronological order with unique ids. -/
theorem round_summarizer_first_kill
    (kills : List Kill) (rounds : List Round)
    (hsort : kills.Pairwise (fun a b => a.tick ≤ b.tick))
    (hnodup : (kills.map (·.kill_id)).Nodup)
    (i : Nat) (rnd : Round) (st : RoundStat)
    (hrnd : rounds[i]? = some rnd)
    (hst : (calculateRoundStats kills rounds).1[i]? = some st) :
    (kills.filter (fun k => decide (k.round_num = rnd.round_num)) = [] →
      st = emptyRoundStat rnd) ∧
    (∀ fk rest, kills.filter (fun k => decide (k.round_num = rnd.round_num)) = fk :: rest →
      (∀ c ∈ kills, c.round_num = rnd.round_num → fk.tick ≤ c.tick) ∧
      st = fullRoundStat rnd fk (fk :: rest).length ∧
      ∃ k' ∈ (calculateRoundStats kills rounds).2, k'.kill_id = fk.kill_id ∧
        k'.round_num = fk.round_num ∧ k'.tick = fk.tick ∧ k'.is_first_kill = true) := by
  have hceq := calcRS_eq kills rounds hnodup
  have hstval : st = roundStatOf kills rnd := by
    rw [hceq] at hst
    simp only [List.getElem?_map, hrnd, Option.map_some', Option.some.injEq] at hst
    exact hst.symm
  constructor
  · intro h
    rw [hstval]
    unfold roundStatOf
    rw [h]
  · intro fk rest h
    refine ⟨?_, ?_, ?_⟩
    · intro c hc hcr
      have hcf : c ∈ kills.filter (fun k => decide (k.round_num = rnd.round_num)) :=
        List.mem_filter.mpr ⟨hc, by simp [hcr]⟩
      rw [h] at hcf
      have hp : (fk :: rest).Pairwise (fun a b => a.tick ≤ b.tick) := by
        rw [← h]
        exact List.Pairwise.sublist (List.filter_sublist kills) hsort
      rcases List.mem_cons.mp hcf with hceq' | hcm
      · rw [hceq']
      · exact (List.pairwise_cons.mp hp).1 c hcm
    · rw [hstval]
      unfold roundStatOf
      rw [h]
    · have hfkmem : fk ∈ kills := by
        have : fk ∈ kills.filter (fun k => decide (k.round_num = rnd.round_num)) := by
          rw [h]; exact List.mem_cons_self fk rest
        exact List.mem_of_mem_filter this
      have hrmem : rnd ∈ rounds := by
        obtain ⟨hi, hg⟩ := List.getElem?_eq_some.mp hrnd
        rw [← hg]
        exact List.getElem_mem hi
      have hidF : fk.kill_id ∈ firstKillIds kills rounds := by
        refine List.mem_filterMap.mpr ⟨rnd, hrmem, ?_⟩
        rw [h]
        rfl
      refine ⟨setFlags (firstKillIds kills rounds) fk, ?_, ?_, ?_, ?_, ?_⟩
      · rw [hceq]
        exact List.mem_map_of_mem _ hfkmem
      · exact setFlags_kill_id _ _
      · exact setFlags_round_num _ _
      · exact setFlags_tick _ _
      · unfold setFlags
        rw [if_pos hidF]

theorem length_le_one_of_nodup_all_eq {α : Type} {l : List α} (hnodup : l.Nodup)
    (hall : ∀ x ∈ l, ∀ y ∈ l, x = y) : l.length ≤ 1 := by
  cases l with
  | nil => simp
  | cons a t =>
    cases t with
    | nil => simp
    | cons b t' =>
      exfalso
      have hab : a = b := hall a (List.mem_cons_self _ _)
        b (List.mem_cons_of_mem a (List.mem_cons_self _ _))
      rw [List.nodup_cons] at hnodup
      exact hnodup.1 (hab ▸ List.mem_cons_self b t')

theorem head?_filter_of_mem_firstKillIds
    (kills : List Kill) (rounds : List Round)
    (hnodup : (kills.map (·.kill_id)).Nodup)
    {x : Kill} (hx : x ∈ kills) (hxF : x.kill_id ∈ firstKillIds kills rounds) :
    (kills.filter (fun k => decide (k.round_num = x.round_num))).head? = some x := by
  obtain ⟨rnd, _, hf⟩ := List.mem_filterMap.mp hxF
  obtain ⟨hk, hhd, hkid⟩ := Option.map_eq_some'.mp hf
  have hkmem : hk ∈ kills.filter (fun k => decide (k.round_num = rnd.round_num)) :=
    mem_of_head?_some hhd
  have hkkills : hk ∈ kills := List.mem_of_mem_filter hkmem
  have hxk : x = hk := List.inj_on_of_nodup_map hnodup hx hkkills hkid.symm
  have hkr : hk.round_num = rnd.round_num := by
    have := (List.mem_filter.mp hkmem).2
    simpa using this
  rw [hxk, hkr]
  exact hhd

/-- C7.  After the summarizer runs, each round number has at most one kill
flagged `is_first_kill`, and the total number of flagged kills is at most the
number of rounds.  Hypotheses: unique kill ids, and kills enter with the
extractor default `is_first_kill = false`. -/
theorem round_summarizer_at_most_one_first_kill
    (kills : List Kill) (rounds : List Round)
    (hnodup : (kills.map (·.kill_id)).Nodup)
    (hflags : ∀ k ∈ kills, k.is_first_kill = false) :
    (∀ r : Int,
      (calculateRoundStats kills rounds).2.countP
        (fun k => decide (k.round_num = r ∧ k.is_first_kill = true)) ≤ 1) ∧
    (calculateRoundStats kills rounds).2.countP (fun k => k.is_first_kill) ≤ rounds.length := by
  have hceq := calcRS_eq kills rounds hnodup
  rw [hceq]
  simp only []
  constructor
  · intro r
    rw [List.countP_map]
    have hcongr : List.countP
        ((fun k => decide (k.round_num = r ∧ k.is_first_kill = true)) ∘
          setFlags (firstKillIds kills rounds)) kills =
        List.countP (fun k => decide (k.round_num = r ∧
          k.kill_id ∈ firstKillIds kills rounds)) kills := by
      refine List.countP_congr ?_
      intro k hk
      simp only [Function.comp, setFlags_round_num, setFlags_is_first_kill,
        hflags k hk, Bool.or_false, decide_eq_true_eq]
    rw [hcongr, List.countP_eq_length_filter]
    set l := kills.filter (fun k => decide (k.round_num = r ∧
      k.kill_id ∈ firstKillIds kills rounds)) with hl
    have hlsub : l.Sublist kills := List.filter_sublist kills
    have hlnodup : l.Nodup := List.Nodup.of_map (·.kill_id)
      (List.Sublist.nodup (List.Sublist.map (·.kill_id) hlsub) hnodup)
    refine length_le_one_of_nodup_all_eq hlnodup ?_
    intro x hx y hy
    have hxp := List.mem_filter.mp hx
    have hyp := List.mem_filter.mp hy
    have hxr : x.round_num = r ∧ x.kill_id ∈ firstKillIds kills rounds := by
      have := hxp.2; simpa using this
    have hyr : y.round_num = r ∧ y.kill_id ∈ firstKillIds kills rounds := by
      have := hyp.2; simpa using this
    have hxh := head?_filter_of_mem_firstKillIds kills rounds hnodup hxp.1 hxr.2
    have hyh := head?_filter_of_mem_firstKillIds kills rounds hnodup hyp.1 hyr.2
    rw [hxr.1] at hxh
    rw [hyr.1] at hyh
    rw [hxh] at hyh
    exact Option.some.inj hyh
  · rw [List.countP_map]
    have hcongr : List.countP ((fun k => k.is_first_kill) ∘
        setFlags (firstKillIds kills rounds)) kills =
        List.countP (fun k => decide (k.kill_id ∈ firstKillIds kills rounds)) kills := by
      refine List.countP_congr ?_
      intro k hk
      simp only [Function.comp, setFlags_is_first_kill, hflags k hk, Bool.or_false]
    rw [hcongr, List.countP_eq_length_filter]
    set l := kills.filter (fun k => decide (k.kill_id ∈ firstKillIds kills rounds)) with hl
    have hlsub : l.Sublist kills := List.filter_sublist kills
    have hidnodup : (l.map (·.kill_id)).Nodup :=
      List.Sublist.nodup (List.Sublist.map (·.kill_id) hlsub) hnodup
    have hlen : l.length = (l.map (·.kill_id)).toFinset.card := by
      rw [List.toFinset_card_of_nodup hidnodup, List.length_map]
    rw [hlen]
    have hsubset : (l.map (·.kill_id)).toFinset ⊆ (firstKillIds kills rounds).toFinset := by
      intro x hxmem
      rw [List.mem_toFinset] at hxmem ⊢
      obtain ⟨k, hk, hkx⟩ := List.mem_map.mp hxmem
      have := (List.mem_filter.mp hk).2
      rw [← hkx]
      simpa using this
    calc (l.map (·.kill_id)).toFinset.card
        ≤ (firstKillIds kills rounds).toFinset.card := Finset.card_le_card hsubset
      _ ≤ (firstKillIds kills rounds).length := List.toFinset_card_le _
      _ ≤ rounds.length := List.length_filterMap_le _ _

/-- Rounds matching `tradeWitnessKills` for the round-summarizer witnesses. -/
def rsRound1 : Round :=
  { round_num := 1, start_tick := 0, end_tick := 500, winner := "CT", reason := "elimination" }

def rsRound2 : Round :=
  { round_num := 2, start_tick := 900, end_tick := 1500, winner := "CT", reason := "elimination" }

def rsRounds : List Round := [rsRound1, rsRound2]

/-- Witness for C4: on the concrete two-round match the round-1 stat record is
the full record of the tick-0 kill, that kill's tick is minimal, and it is
flagged in the final kill list. -/
theorem round_summarizer_first_kill_witness :
    (calculateRoundStats tradeWitnessKills rsRounds).1[0]? =
        some (fullRoundStat rsRound1 (mkKill 0 0 1 "TERRORIST" "E" "CT" "P") 2) ∧
    (∀ c ∈ tradeWitnessKills, c.round_num = rsRound1.round_num →
      (mkKill 0 0 1 "TERRORIST" "E" "CT" "P").tick ≤ c.tick) ∧
    ∃ k' ∈ (calculateRoundStats tradeWitnessKills rsRounds).2, k'.kill_id = 0 ∧
      k'.round_num = 1 ∧ k'.tick = 0 ∧ k'.is_first_kill = true := by
  have h := round_summarizer_first_kill tradeWitnessKills rsRounds (by decide) (by decide)
    0 rsRound1 (fullRoundStat rsRound1 (mkKill 0 0 1 "TERRORIST" "E" "CT" "P") 2)
    (by decide) (by decide)
  have h2 := h.2 (mkKill 0 0 1 "TERRORIST" "E" "CT" "P")
    [mkKill 1 320 1 "CT" "Q" "TERRORIST" "E"] (by decide)
  exact ⟨by decide, h2.1, h2.2.2⟩

/-- Witness for C7 on the concrete two-round match. -/
theorem first_kill_count_witness :
    (calculateRoundStats tradeWitnessKills rsRounds).2.countP
        (fun k => decide (k.round_num = 1 ∧ k.is_first_kill = true)) ≤ 1 ∧
    (calculateRoundStats tradeWitnessKills rsRounds).2.countP
        (fun k => k.is_first_kill) ≤ rsRounds.length := by
  have h := round_summarizer_at_most_one_first_kill tradeWitnessKills rsRounds
    (by decide) (by decide)
  exact ⟨h.1 1, h.2⟩

/-! ## Lemmas: clutch detector -/

/-- The decrement applied to the CT alive count by one kill. -/
def dCT (k : Kill) : Int := if k.victim_team = "CT" then 1 else 0

/-- The decrement applied to the T alive count by one kill. -/
def dT (k : Kill) : Int := if k.victim_team = "TERRORIST" then 1 else 0

theorem ctAfter_zero (c : Int) (l : List Kill) : ctAfter c l 0 = c := by
  simp [ctAfter]

theorem tAfter_zero (t : Int) (l : List Kill) : tAfter t l 0 = t := by
  simp [tAfter]

theorem ctAfter_cons (c : Int) (k : Kill) (l : List Kill) (n : Nat) :
    ctAfter c (k :: l) (n + 1) = ctAfter (c - dCT k) l n := by
  unfold ctAfter dCT
  rw [List.take_succ_cons, List.countP_cons]
  by_cases h : k.victim_team = "CT" <;> simp [h] <;> push_cast <;> ring

theorem tAfter_cons (t : Int) (k : Kill) (l : List Kill) (n : Nat) :
    tAfter t (k :: l) (n + 1) = tAfter (t - dT k) l n := by
  unfold tAfter dT
  rw [List.take_succ_cons, List.countP_cons]
  by_cases h : k.victim_team = "TERRORIST" <;> simp [h] <;> push_cast <;> ring

theorem transAt_cons (c t : Int) (k : Kill) (l : List Kill) (n : Nat) :
    transAt c t (k :: l) (n + 1) ↔ transAt (c - dCT k) (t - dT k) l n := by
  unfold transAt
  rw [ctAfter_cons, tAfter_cons]

theorem transAt_zero_iff (c t : Int) (k : Kill) (l : List Kill) :
    transAt c t (k :: l) 0 ↔
      ((c - dCT k = 1 ∧ 1 ≤ t - dT k) ∨ (t - dT k = 1 ∧ 1 ≤ c - dCT k)) := by
  unfold transAt
  rw [ctAfter_cons, tAfter_cons, ctAfter_zero, tAfter_zero]

/-- Unfolded form of `clutchStep` when no clutch has started yet. -/
theorem clutchStep_eq (ak : List Kill) (st : ClutchState) (k : Kill)
    (h : st.clutch_started = false) :
    clutchStep ak st k =
      if st.ct_alive_count - dCT k = 1 ∧ 1 ≤ st.t_alive_count - dT k then
        { ct_alive_count := st.ct_alive_count - dCT k,
          t_alive_count := st.t_alive_count - dT k,
          clutch_started := true, clutch_team := "CT",
          clutch_vs := st.t_alive_count - dT k, clutch_start_tick := k.tick,
          clutch_player :=
            ak.find? (fun kl => decide (kl.attacker_team = "CT" ∧ k.tick ≤ kl.tick)) }
      else if st.t_alive_count - dT k = 1 ∧ 1 ≤ st.ct_alive_count - dCT k then
        { ct_alive_count := st.ct_alive_count - dCT k,
          t_alive_count := st.t_alive_count - dT k,
          clutch_started := true, clutch_team := "TERRORIST",
          clutch_vs := st.ct_alive_count - dCT k, clutch_start_tick := k.tick,
          clutch_player :=
            ak.find? (fun kl => decide (kl.attacker_team = "TERRORIST" ∧ k.tick ≤ kl.tick)) }
      else
        { st with
          ct_alive_count := st.ct_alive_count - dCT k,
          t_alive_count := st.t_alive_count - dT k } := by
  unfold clutchStep dCT dT
  by_cases h1 : k.victim_team = "CT"
  · simp [h1, h]
  · by_cases h2 : k.victim_team = "TERRORIST"
    · simp [h1, h2, h]
    · simp only [h1, h2, if_false, h, Bool.false_eq_true, sub_zero]
      obtain ⟨a, b, c, d, e, f, g⟩ := st
      dsimp only at h ⊢
      subst h
      rfl

/-- Once the clutch has started, further kills only decrement counts: the
clutch fields are frozen. -/
theorem foldl_clutchStep_of_started (ak : List Kill) :
    ∀ (l : List Kill) (st : ClutchState), st.clutch_started = true →
      (l.foldl (clutchStep ak) st).clutch_started = true ∧
      (l.foldl (clutchStep ak) st).clutch_team = st.clutch_team ∧
      (l.foldl (clutchStep ak) st).clutch_vs = st.clutch_vs ∧
      (l.foldl (clutchStep ak) st).clutch_start_tick = st.clutch_start_tick ∧
      (l.foldl (clutchStep ak) st).clutch_player = st.clutch_player := by
  intro l
  induction l with
  | nil => intro st h; exact ⟨h, rfl, rfl, rfl, rfl⟩
  | cons k rest ih =>
    intro st h
    rw [List.foldl_cons]
    have hstep : clutchStep ak st k =
        (if k.victim_team = "CT" then { st with ct_alive_count := st.ct_alive_count - 1 }
         else if k.victim_team = "TERRORIST" then
           { st with t_alive_count := st.t_alive_count - 1 }
         else st) := by
      unfold clutchStep
      by_cases h1 : k.victim_team = "CT"
      · simp [h1, h]
      · by_cases h2 : k.victim_team = "TERRORIST"
        · simp [h1, h2, h]
        · simp [h1, h2, h]
    rw [hstep]
    by_cases h1 : k.victim_team = "CT"
    · rw [if_pos h1]
      exact ih { st with ct_alive_count := st.ct_alive_count - 1 } h
    · rw [if_neg h1]
      by_cases h2 : k.victim_team = "TERRORIST"
      · rw [if_pos h2]
        exact ih { st with t_alive_count := st.t_alive_count - 1 } h
      · rw [if_neg h2]
        exact ih st h

/-- Characterization of the whole per-round simulation loop: the clutch
fields are those of the first 1-vs-X transition (code checks the CT side
first), and the clutch player is the first kill in `ak` at or after the
transition tick whose attacker is on the recorded team. -/
theorem foldl_clutchStep_char (ak : List Kill) :
    ∀ (l : List Kill) (st : ClutchState), st.clutch_started = false →
      (((l.foldl (clutchStep ak) st).clutch_started = true) ↔
        ∃ n, n < l.length ∧ transAt st.ct_alive_count st.t_alive_count l n) ∧
      (∀ n, ∀ hn : n < l.length, transAt st.ct_alive_count st.t_alive_count l n →
        (∀ m, m < n → ¬ transAt st.ct_alive_count st.t_alive_count l m) →
        (l.foldl (clutchStep ak) st).clutch_team =
          (if ctAfter st.ct_alive_count l (n+1) = 1 ∧ 1 ≤ tAfter st.t_alive_count l (n+1)
            then "CT" else "TERRORIST") ∧
        (l.foldl (clutchStep ak) st).clutch_vs =
          (if ctAfter st.ct_alive_count l (n+1) = 1 ∧ 1 ≤ tAfter st.t_alive_count l (n+1)
            then tAfter st.t_alive_count l (n+1) else ctAfter st.ct_alive_count l (n+1)) ∧
        (l.foldl (clutchStep ak) st).clutch_start_tick = (l.get ⟨n, hn⟩).tick ∧
        (l.foldl (clutchStep ak) st).clutch_player =
          ak.find? (fun kl => decide (kl.attacker_team =
            (if ctAfter st.ct_alive_count l (n+1) = 1 ∧ 1 ≤ tAfter st.t_alive_count l (n+1)
              then "CT" else "TERRORIST") ∧ (l.get ⟨n, hn⟩).tick ≤ kl.tick))) := by
  intro l
  induction l with
  | nil =>
    intro st hst
    constructor
    · simp [hst]
    · intro n hn
      exact absurd hn (Nat.not_lt_zero n)
  | cons k rest ih =>
    intro st hst
    rw [List.foldl_cons, clutchStep_eq ak st k hst]
    have hct1 : ctAfter st.ct_alive_count (k :: rest) (0+1) = st.ct_alive_count - dCT k := by
      rw [ctAfter_cons, ctAfter_zero]
    have ht1 : tAfter st.t_alive_count (k :: rest) (0+1) = st.t_alive_count - dT k := by
      rw [tAfter_cons, tAfter_zero]
    by_cases hA : st.ct_alive_count - dCT k = 1 ∧ 1 ≤ st.t_alive_count - dT k
    · rw [if_pos hA]
      have hpres := foldl_clutchStep_of_started ak rest
        { ct_alive_count := st.ct_alive_count - dCT k,
          t_alive_count := st.t_alive_count - dT k,
          clutch_started := true, clutch_team := "CT",
          clutch_vs := st.t_alive_count - dT k, clutch_start_tick := k.tick,
          clutch_player :=
            ak.find? (fun kl => decide (kl.attacker_team = "CT" ∧ k.tick ≤ kl.tick)) } rfl
      have htrans0 : transAt st.ct_alive_count st.t_alive_count (k :: rest) 0 :=
        (transAt_zero_iff _ _ _ _).mpr (Or.inl hA)
      constructor
      · exact ⟨fun _ => ⟨0, Nat.succ_pos _, htrans0⟩, fun _ => hpres.1⟩
      · intro n hn htrans hmin
        cases n with
        | succ m => exact absurd htrans0 (hmin 0 (Nat.succ_pos m))
        | zero =>
          have hcond : ctAfter st.ct_alive_count (k :: rest) (0+1) = 1 ∧
              1 ≤ tAfter st.t_alive_count (k :: rest) (0+1) := by
            rw [hct1, ht1]
            exact hA
          have hifteam : (if ctAfter st.ct_alive_count (k :: rest) (0+1) = 1 ∧
              1 ≤ tAfter st.t_alive_count (k :: rest) (0+1)
              then "CT" else "TERRORIST") = "CT" := if_pos hcond
          refine ⟨?_, ?_, ?_, ?_⟩
          · rw [hpres.2.1, hifteam]
          · rw [hpres.2.2.1, if_pos hcond, ht1]
          · rw [hpres.2.2.2.1]
            rfl
          · rw [hpres.2.2.2.2]
            simp only [hifteam]
            rfl
    · rw [if_neg hA]
      by_cases hB : st.t_alive_count - dT k = 1 ∧ 1 ≤ st.ct_alive_count - dCT k
      · rw [if_pos hB]
        have hpres := foldl_clutchStep_of_started ak rest
          { ct_alive_count := st.ct_alive_count - dCT k,
            t_alive_count := st.t_alive_count - dT k,
            clutch_started := true, clutch_team := "TERRORIST",
            clutch_vs := st.ct_alive_count - dCT k, clutch_start_tick := k.tick,
            clutch_player :=
              ak.find? (fun kl => decide (kl.attacker_team = "TERRORIST" ∧ k.tick ≤ kl.tick)) } rfl
        have htrans0 : transAt st.ct_alive_count st.t_alive_count (k :: rest) 0 :=
          (transAt_zero_iff _ _ _ _).mpr (Or.inr hB)
        constructor
        · exact ⟨fun _ => ⟨0, Nat.succ_pos _, htrans0⟩, fun _ => hpres.1⟩
        · intro n hn htrans hmin
          cases n with
          | succ m => exact absurd htrans0 (hmin 0 (Nat.succ_pos m))
          | zero =>
            have hcond : ¬ (ctAfter st.ct_alive_count (k :: rest) (0+1) = 1 ∧
                1 ≤ tAfter st.t_alive_count (k :: rest) (0+1)) := by
              rw [hct1, ht1]
              exact hA
            have hifteam : (if ctAfter st.ct_alive_count (k :: rest) (0+1) = 1 ∧
                1 ≤ tAfter st.t_alive_count (k :: rest) (0+1)
                then "CT" else "TERRORIST") = "TERRORIST" := if_neg hcond
            refine ⟨?_, ?_, ?_, ?_⟩
            · rw [hpres.2.1, hifteam]
            · rw [hpres.2.2.1, if_neg hcond, hct1]
            · rw [hpres.2.2.2.1]
              rfl
            · rw [hpres.2.2.2.2]
              simp only [hifteam]
              rfl
      · rw [if_neg hB]
        have hst' : ({ st with
            ct_alive_count := st.ct_alive_count - dCT k,
            t_alive_count := st.t_alive_count - dT k } : ClutchState).clutch_started = false := hst
        have ihr := ih { st with
            ct_alive_count := st.ct_alive_count - dCT k,
            t_alive_count := st.t_alive_count - dT k } hst'
        have hnot0 : ¬ transAt st.ct_alive_count st.t_alive_count (k :: rest) 0 := by
          intro hc
          rcases (transAt_zero_iff _ _ _ _).mp hc with h | h
          · exact hA h
          · exact hB h
        constructor
        · constructor
          · intro hs
            obtain ⟨m, hm, ht⟩ := ihr.1.mp hs
            exact ⟨m + 1, Nat.succ_lt_succ hm, (transAt_cons _ _ _ _ _).mpr ht⟩
          · rintro ⟨n, hn, ht⟩
            cases n with
            | zero => exact absurd ht hnot0
            | succ m =>
              exact ihr.1.mpr ⟨m, Nat.lt_of_succ_lt_succ hn,
                (transAt_cons _ _ _ _ _).mp ht⟩
        · intro n hn htrans hmin
          cases n with
          | zero => exact absurd htrans hnot0
          | succ m =>
            have hm := ihr.2 m (Nat.lt_of_succ_lt_succ hn)
              ((transAt_cons _ _ _ _ _).mp htrans)
              (fun j hj hc => hmin (j + 1) (Nat.succ_lt_succ hj)
                ((transAt_cons _ _ _ _ _).mpr hc))
            have hctm : ctAfter st.ct_alive_count (k :: rest) (m + 1 + 1) =
                ctAfter (st.ct_alive_count - dCT k) rest (m + 1) := ctAfter_cons _ _ _ _
            have htm : tAfter st.t_alive_count (k :: rest) (m + 1 + 1) =
                tAfter (st.t_alive_count - dT k) rest (m + 1) := tAfter_cons _ _ _ _
            have hget : (k :: rest).get ⟨m + 1, hn⟩ =
                rest.get ⟨m, Nat.lt_of_succ_lt_succ hn⟩ := rfl
            simp only [hctm, htm, hget]
            exact hm

theorem ctAfter_succ (c : Int) (l : List Kill) (n : Nat) (hn : n < l.length) :
    ctAfter c l (n+1) = ctAfter c l n - dCT l[n] := by
  unfold ctAfter dCT
  rw [List.take_succ, List.getElem?_eq_getElem hn, List.countP_append]
  by_cases h : l[n].victim_team = "CT" <;> simp [h] <;> push_cast <;> ring

theorem tAfter_succ (t : Int) (l : List Kill) (n : Nat) (hn : n < l.length) :
    tAfter t l (n+1) = tAfter t l n - dT l[n] := by
  unfold tAfter dT
  rw [List.take_succ, List.getElem?_eq_getElem hn, List.countP_append]
  by_cases h : l[n].victim_team = "TERRORIST" <;> simp [h] <;> push_cast <;> ring

/-- At the first 1-vs-X transition of a round simulated from 5v5, the two
alive counts cannot both be 1: exactly one team is the reduced one. -/
theorem first_transition_not_both_one (l : List Kill) (n : Nat) (hn : n < l.length)
    (hmin : ∀ m, m < n → ¬ transAt 5 5 l m) :
    ¬ (ctAfter 5 l (n+1) = 1 ∧ tAfter 5 l (n+1) = 1) := by
  rintro ⟨hc, ht⟩
  have hcs := ctAfter_succ 5 l n hn
  have hts := tAfter_succ 5 l n hn
  by_cases h1 : l[n].victim_team = "CT"
  · have hdc : dCT l[n] = 1 := by simp [dCT, h1]
    have hdt : dT l[n] = 0 := by simp [dT, h1]
    have hcn : ctAfter 5 l n = 2 := by omega
    have htn : tAfter 5 l n = 1 := by omega
    cases n with
    | zero =>
      rw [tAfter_zero] at htn
      omega
    | succ m =>
      exact hmin m (Nat.lt_succ_self m) (Or.inr ⟨htn, by omega⟩)
  · by_cases h2 : l[n].victim_team = "TERRORIST"
    · have hdc : dCT l[n] = 0 := by simp [dCT, h1]
      have hdt : dT l[n] = 1 := by simp [dT, h2]
      have hcn : ctAfter 5 l n = 1 := by omega
      have htn : tAfter 5 l n = 2 := by omega
      cases n with
      | zero =>
        rw [ctAfter_zero] at hcn
        omega
      | succ m =>
        exact hmin m (Nat.lt_succ_self m) (Or.inl ⟨hcn, by omega⟩)
    · have hdc : dCT l[n] = 0 := by simp [dCT, h1]
      have hdt : dT l[n] = 0 := by simp [dT, h2]
      have hcn : ctAfter 5 l n = 1 := by omega
      have htn : tAfter 5 l n = 1 := by omega
      cases n with
      | zero =>
        rw [ctAfter_zero] at hcn
        omega
      | succ m =>
        exact hmin m (Nat.lt_succ_self m) (Or.inl ⟨hcn, by omega⟩)

/-- C3.  The Clutch Detector skips rounds with fewer than two kills, and on
the sorted kill list of a round it replays kills from 5v5, decrementing the
victim's team; at the first kill after which one team's count is exactly 1
while the other is ≥ 1 it fixes the candidate — team = the team at 1,
opponents = the other team's count, start_tick = that kill's tick — and only
this first transition is recorded. -/
theorem clutch_detector_first_transition (kills : List Kill) (rounds : List Round) :
    (∀ c ∈ detectClutches kills rounds, ∃ rnd ∈ rounds, rnd.round_num = c.round_num ∧
      2 ≤ (sortedRoundKills kills rnd).length) ∧
    (∀ l : List Kill,
      ((simulateRound l).clutch_started = true ↔ ∃ n, n < l.length ∧ transAt 5 5 l n) ∧
      (∀ n, ∀ hn : n < l.length, transAt 5 5 l n → (∀ m, m < n → ¬ transAt 5 5 l m) →
        (ctAfter 5 l (n+1) = 1 →
          (simulateRound l).clutch_team = "CT" ∧
          (simulateRound l).clutch_vs = tAfter 5 l (n+1)) ∧
        (tAfter 5 l (n+1) = 1 →
          (simulateRound l).clutch_team = "TERRORIST" ∧
          (simulateRound l).clutch_vs = ctAfter 5 l (n+1)) ∧
        (simulateRound l).clutch_start_tick = (l.get ⟨n, hn⟩).tick)) := by
  constructor
  · intro c hc
    obtain ⟨rnd, hrnd, hcr⟩ := List.mem_filterMap.mp hc
    by_cases hlen : (sortedRoundKills kills rnd).length < 2
    · exfalso
      simp only [clutchForRound, if_pos hlen] at hcr
      exact Option.noConfusion hcr
    · refine ⟨rnd, hrnd, ?_, by omega⟩
      simp only [clutchForRound, if_neg hlen] at hcr
      cases hp : (simulateRound (sortedRoundKills kills rnd)).clutch_player with
      | none =>
        rw [hp] at hcr
        dsimp only at hcr
        exact Option.noConfusion hcr
      | some kl =>
        rw [hp] at hcr
        dsimp only at hcr
        by_cases hguard : (simulateRound (sortedRoundKills kills rnd)).clutch_started = true ∧
            kl.attacker_steamid ≠ "" ∧ 2 ≤ (simulateRound (sortedRoundKills kills rnd)).clutch_vs
        · rw [if_pos hguard] at hcr
          injection hcr with hcr
          rw [← hcr]
        · rw [if_neg hguard] at hcr
          exact Option.noConfusion hcr
  · intro l
    have hchar := foldl_clutchStep_char l l initClutchState rfl
    simp only [initClutchState] at hchar
    unfold simulateRound initClutchState
    constructor
    · exact hchar.1
    · intro n hn htrans hmin
      have hfields := hchar.2 n hn htrans hmin
      have hnotboth := first_transition_not_both_one l n hn hmin
      have h1let : 1 ≤ tAfter 5 l (n+1) := by
        rcases htrans with ⟨_, h⟩ | ⟨h, _⟩
        · exact h
        · omega
      refine ⟨?_, ?_, hfields.2.2.1⟩
      · intro hct
        have hcond : ctAfter 5 l (n+1) = 1 ∧ 1 ≤ tAfter 5 l (n+1) := ⟨hct, h1let⟩
        constructor
        · rw [hfields.1, if_pos hcond]
        · rw [hfields.2.1, if_pos hcond]
      · intro htt
        have hcond : ¬ (ctAfter 5 l (n+1) = 1 ∧ 1 ≤ tAfter 5 l (n+1)) := by
          intro hcond
          exact hnotboth ⟨hcond.1, htt⟩
        constructor
        · rw [hfields.1, if_neg hcond]
        · rw [hfields.2.1, if_neg hcond]

/-- Concrete clutch input: four CT deaths to `t1`, and the surviving CT
player `C5` trades `t1` at the same tick (40) as the transition kill. -/
def clutchKills : List Kill :=
  [ mkKill 0 10 1 "TERRORIST" "t1" "CT" "c1",
    mkKill 1 20 1 "TERRORIST" "t1" "CT" "c2",
    mkKill 2 30 1 "TERRORIST" "t1" "CT" "c3",
    mkKill 3 40 1 "TERRORIST" "t1" "CT" "c4",
    mkKill 4 40 1 "CT" "C5" "TERRORIST" "t1" ]

def clutchRound : Round :=
  { round_num := 1, start_tick := 0, end_tick := 100, winner := "TERRORIST",
    reason := "elimination" }

/-- The clutch record the detector produces on `clutchKills`. -/
def clutchRecordEx : Clutch :=
  { round_num := 1, player_steamid := "C5", player_name := "C5", player_team := "CT",
    clutch_type := "1v5", opponents := 5, won := false, start_tick := 40 }

/-- Witness for C3 on the concrete round: the detector's record belongs to a
round with ≥ 2 kills, and at the first transition (kill index 3) the team at
1 is CT, opponents are the T count, and the start tick is that kill's tick. -/
theorem clutch_first_transition_witness :
    (∃ rnd ∈ [clutchRound], rnd.round_num = clutchRecordEx.round_num ∧
      2 ≤ (sortedRoundKills clutchKills rnd).length) ∧
    (simulateRound (sortedRoundKills clutchKills clutchRound)).clutch_team = "CT" ∧
    (simulateRound (sortedRoundKills clutchKills clutchRound)).clutch_vs =
      tAfter 5 (sortedRoundKills clutchKills clutchRound) 4 ∧
    (simulateRound (sortedRoundKills clutchKills clutchRound)).clutch_start_tick =
      ((sortedRoundKills clutchKills clutchRound).get ⟨3, by decide⟩).tick := by
  have h := clutch_detector_first_transition clutchKills [clutchRound]
  have h1 := h.1 clutchRecordEx (by decide)
  have h2 := (h.2 (sortedRoundKills clutchKills clutchRound)).2 3 (by decide)
    (by decide) (by decide)
  have h3 := h2.1 (by decide)
  exact ⟨h1, h3.1, h3.2, h2.2.2⟩

/-- Unfolded form of `clutchStep` once the clutch has started. -/
theorem clutchStep_started_eq (ak : List Kill) (st : ClutchState) (k : Kill)
    (h : st.clutch_started = true) :
    clutchStep ak st k =
      (if k.victim_team = "CT" then { st with ct_alive_count := st.ct_alive_count - 1 }
       else if k.victim_team = "TERRORIST" then
         { st with t_alive_count := st.t_alive_count - 1 }
       else st) := by
  unfold clutchStep
  by_cases h1 : k.victim_team = "CT"
  · simp [h1, h]
  · by_cases h2 : k.victim_team = "TERRORIST"
    · simp [h1, h2, h]
    · simp [h1, h2, h]

/-- Invariant of the simulation loop: once the clutch has started, the stored
clutch player equals the search of `ak` for the first kill at or after the
start tick whose attacker is on the clutch team. -/
theorem foldl_player_find? (ak : List Kill) :
    ∀ (l : List Kill) (st : ClutchState),
      (st.clutch_started = true →
        st.clutch_player = ak.find? (fun kl => decide (kl.attacker_team = st.clutch_team ∧
          st.clutch_start_tick ≤ kl.tick))) →
      ((l.foldl (clutchStep ak) st).clutch_started = true →
        (l.foldl (clutchStep ak) st).clutch_player =
          ak.find? (fun kl => decide (kl.attacker_team =
            (l.foldl (clutchStep ak) st).clutch_team ∧
            (l.foldl (clutchStep ak) st).clutch_start_tick ≤ kl.tick))) := by
  intro l
  induction l with
  | nil => intro st h; exact h
  | cons k rest ih =>
    intro st h
    rw [List.foldl_cons]
    apply ih
    by_cases hs : st.clutch_started = true
    · rw [clutchStep_started_eq ak st k hs]
      by_cases h1 : k.victim_team = "CT"
      · rw [if_pos h1]
        intro _
        exact h hs
      · rw [if_neg h1]
        by_cases h2 : k.victim_team = "TERRORIST"
        · rw [if_pos h2]
          intro _
          exact h hs
        · rw [if_neg h2]
          intro _
          exact h hs
    · have hs' : st.clutch_started = false := by
        cases hb : st.clutch_started
        · rfl
        · exact absurd hb hs
      rw [clutchStep_eq ak st k hs']
      by_cases hA : st.ct_alive_count - dCT k = 1 ∧ 1 ≤ st.t_alive_count - dT k
      · rw [if_pos hA]
        intro _
        rfl
      · rw [if_neg hA]
        by_cases hB : st.t_alive_count - dT k = 1 ∧ 1 ≤ st.ct_alive_count - dCT k
        · rw [if_pos hB]
          intro _
          rfl
        · rw [if_neg hB]
          intro hcontra
          exact absurd (show st.clutch_started = true from hcontra) hs

/-- C6 (amended).  Whenever a Clutch record is produced for a round, its
player is the attacker of the first kill in the round's sorted kill list at a
tick AT OR AFTER `start_tick` (the code uses `>=`, not strictly later) whose
attacker team is the clutch team. -/
theorem clutch_player_first_attacker_at_or_after
    (kills : List Kill) (rnd : Round) (c : Clutch)
    (hc : clutchForRound kills rnd = some c) :
    ∃ kl, (sortedRoundKills kills rnd).find?
        (fun x => decide (x.attacker_team = c.player_team ∧ c.start_tick ≤ x.tick)) = some kl ∧
      c.player_steamid = kl.attacker_steamid ∧ c.player_name = kl.attacker_name := by
  by_cases hlen : (sortedRoundKills kills rnd).length < 2
  · simp only [clutchForRound, if_pos hlen] at hc
    exact Option.noConfusion hc
  · simp only [clutchForRound, if_neg hlen] at hc
    cases hp : (simulateRound (sortedRoundKills kills rnd)).clutch_player with
    | none =>
      rw [hp] at hc
      dsimp only at hc
      exact Option.noConfusion hc
    | some kl =>
      rw [hp] at hc
      dsimp only at hc
      by_cases hguard : (simulateRound (sortedRoundKills kills rnd)).clutch_started = true ∧
          kl.attacker_steamid ≠ "" ∧ 2 ≤ (simulateRound (sortedRoundKills kills rnd)).clutch_vs
      · rw [if_pos hguard] at hc
        injection hc with hc
        have hinv := foldl_player_find? (sortedRoundKills kills rnd)
          (sortedRoundKills kills rnd) initClutchState
          (fun habs => absurd habs (by decide))
        have hplay : (simulateRound (sortedRoundKills kills rnd)).clutch_player =
            (sortedRoundKills kills rnd).find? (fun x => decide (x.attacker_team =
              (simulateRound (sortedRoundKills kills rnd)).clutch_team ∧
              (simulateRound (sortedRoundKills kills rnd)).clutch_start_tick ≤ x.tick)) :=
          hinv hguard.1
        rw [hp] at hplay
        refine ⟨kl, ?_, ?_, ?_⟩
        · rw [← hc]
          exact hplay.symm
        · rw [← hc]
        · rw [← hc]
      · rw [if_neg hguard] at hc
        exact Option.noConfusion hc

/-- Counterexample to C6 as stated ("strictly later than start_tick"): on
`clutchKills` a record is produced whose player `C5` comes from the kill at
the transition tick itself (tick 40, `>=` comparison); no kill strictly
later than `start_tick = 40` with a CT attacker exists at all. -/
theorem clutch_player_strictly_after_counterexample :
    detectClutches clutchKills [clutchRound] = [clutchRecordEx] ∧
    clutchRecordEx.player_steamid = "C5" ∧
    clutchRecordEx.player_team = "CT" ∧
    clutchRecordEx.start_tick = 40 ∧
    (sortedRoundKills clutchKills clutchRound).filter
      (fun x => decide (x.attacker_team = "CT" ∧ 40 < x.tick)) = [] := by
  decide

/-- Witness for the amended C6 on the concrete round. -/
theorem clutch_player_at_or_after_witness :
    ∃ kl, (sortedRoundKills clutchKills clutchRound).find?
        (fun x => decide (x.attacker_team = clutchRecordEx.player_team ∧
          clutchRecordEx.start_tick ≤ x.tick)) = some kl ∧
      clutchRecordEx.player_steamid = kl.attacker_steamid ∧
      clutchRecordEx.player_name = kl.attacker_name :=
  clutch_player_first_attacker_at_or_after clutchKills clutchRound clutchRecordEx (by decide)

/-- C8.  Every produced Clutch record has `opponents ≥ 2`, and a round whose
simulation fixes an opponent count below 2 (in particular a 1v1 transition)
yields no record. -/
theorem clutch_opponents_ge_two (kills : List Kill) (rounds : List Round) :
    (∀ c ∈ detectClutches kills rounds, 2 ≤ c.opponents) ∧
    (∀ kills2 : List Kill, ∀ rnd : Round,
      (simulateRound (sortedRoundKills kills2 rnd)).clutch_vs < 2 →
      clutchForRound kills2 rnd = none) := by
  constructor
  · intro c hc
    obtain ⟨rnd, _, hcr⟩ := List.mem_filterMap.mp hc
    by_cases hlen : (sortedRoundKills kills rnd).length < 2
    · simp only [clutchForRound, if_pos hlen] at hcr
      exact Option.noConfusion hcr
    · simp only [clutchForRound, if_neg hlen] at hcr
      cases hp : (simulateRound (sortedRoundKills kills rnd)).clutch_player with
      | none =>
        rw [hp] at hcr
        dsimp only at hcr
        exact Option.noConfusion hcr
      | some kl =>
        rw [hp] at hcr
        dsimp only at hcr
        by_cases hguard : (simulateRound (sortedRoundKills kills rnd)).clutch_started = true ∧
            kl.attacker_steamid ≠ "" ∧ 2 ≤ (simulateRound (sortedRoundKills kills rnd)).clutch_vs
        · rw [if_pos hguard] at hcr
          injection hcr with hcr
          rw [← hcr]
          exact hguard.2.2
        · rw [if_neg hguard] at hcr
          exact Option.noConfusion hcr
  · intro kills2 rnd hvs
    by_cases hlen : (sortedRoundKills kills2 rnd).length < 2
    · simp only [clutchForRound, if_pos hlen]
    · simp only [clutchForRound, if_neg hlen]
      cases hp : (simulateRound (sortedRoundKills kills2 rnd)).clutch_player with
      | none => rfl
      | some kl =>
        dsimp only
        have hng : ¬ ((simulateRound (sortedRoundKills kills2 rnd)).clutch_started = true ∧
            kl.attacker_steamid ≠ "" ∧
            2 ≤ (simulateRound (sortedRoundKills kills2 rnd)).clutch_vs) :=
          fun hg => absurd hg.2.2 (by omega)
        rw [if_neg hng]

/-- Kills with no 1-vs-X transition at all (the T side only loses two). -/
def noTransKills : List Kill :=
  [ mkKill 0 10 1 "TERRORIST" "t1" "CT" "c1",
    mkKill 1 20 1 "TERRORIST" "t1" "CT" "c2" ]

/-- Witness for C8: the produced record on `clutchKills` has opponents ≥ 2,
and a round whose simulated opponent count stays below 2 yields no record. -/
theorem clutch_opponents_witness :
    2 ≤ clutchRecordEx.opponents ∧ clutchForRound noTransKills clutchRound = none := by
  have h := clutch_opponents_ge_two clutchKills [clutchRound]
  exact ⟨h.1 clutchRecordEx (by decide), h.2 noTransKills clutchRound (by decide)⟩

/-- C10.  If the simulation reaches a started clutch with `opponents ≥ 2`
but no kill of the round at or after the transition tick has its attacker on
the clutch team, no Clutch record is produced for the round. -/
theorem clutch_no_record_without_attacker (kills : List Kill) (rnd : Round)
    (hstart : (simulateRound (sortedRoundKills kills rnd)).clutch_started = true)
    (hvs : 2 ≤ (simulateRound (sortedRoundKills kills rnd)).clutch_vs)
    (hno : ∀ x ∈ sortedRoundKills kills rnd,
      ¬ (x.attacker_team = (simulateRound (sortedRoundKills kills rnd)).clutch_team ∧
        (simulateRound (sortedRoundKills kills rnd)).clutch_start_tick ≤ x.tick)) :
    clutchForRound kills rnd = none := by
  have hinv := foldl_player_find? (sortedRoundKills kills rnd)
    (sortedRoundKills kills rnd) initClutchState
    (fun habs => absurd habs (by decide))
  have hplay : (simulateRound (sortedRoundKills kills rnd)).clutch_player =
      (sortedRoundKills kills rnd).find? (fun x => decide (x.attacker_team =
        (simulateRound (sortedRoundKills kills rnd)).clutch_team ∧
        (simulateRound (sortedRoundKills kills rnd)).clutch_start_tick ≤ x.tick)) :=
    hinv hstart
  have hnone : (sortedRoundKills kills rnd).find? (fun x => decide (x.attacker_team =
      (simulateRound (sortedRoundKills kills rnd)).clutch_team ∧
      (simulateRound (sortedRoundKills kills rnd)).clutch_start_tick ≤ x.tick)) = none :=
    List.find?_eq_none.mpr (fun x hx => by simpa using hno x hx)
  rw [hnone] at hplay
  by_cases hlen : (sortedRoundKills kills rnd).length < 2
  · simp only [clutchForRound, if_pos hlen]
  · simp only [clutchForRound, if_neg hlen]
    rw [hplay]

/-- Kills reaching a transition (CT reduced to 1) where the lone CT player
never appears as an attacker. -/
def lonelyKills : List Kill :=
  [ mkKill 0 10 1 "TERRORIST" "t1" "CT" "c1",
    mkKill 1 20 1 "TERRORIST" "t1" "CT" "c2",
    mkKill 2 30 1 "TERRORIST" "t1" "CT" "c3",
    mkKill 3 40 1 "TERRORIST" "t1" "CT" "c4" ]

/-- Witness for C10: on `lonelyKills` the simulation starts a clutch with 5
opponents, no CT attacker exists, and no record is produced. -/
theorem clutch_no_record_witness : clutchForRound lonelyKills clutchRound = none :=
  clutch_no_record_without_attacker lonelyKills clutchRound (by decide) (by decide) (by decide)

/-! ## Lemmas: player statistics aggregator -/

theorem insertByAdr_length (s : PlayerStats) :
    ∀ l : List PlayerStats, (insertByAdr s l).length = l.length + 1 := by
  intro l
  induction l with
  | nil => rfl
  | cons x xs ih =>
    unfold insertByAdr
    by_cases h : x.adr ≤ s.adr
    · rw [if_pos h]
      rfl
    · rw [if_neg h]
      simp [ih]

theorem sortByAdrDesc_length :
    ∀ l : List PlayerStats, (sortByAdrDesc l).length = l.length := by
  intro l
  induction l with
  | nil => rfl
  | cons s rest ih =>
    unfold sortByAdrDesc
    rw [insertByAdr_length, ih]
    rfl

/-- C5 (amended).  With at least one round, the aggregator produces exactly
one record per entry of the roster list (the extractor's `players`, deduped
by steamid); with zero rounds it returns the empty list outright (hence no
divide-by-zero is possible). -/
theorem player_stats_one_record_per_roster_entry
    (players : List Player) (kills : List Kill) (damages : List Damage)
    (rounds : List Round) (clutches : List Clutch) :
    (0 < rounds.length →
      (calculatePlayerStats players kills damages rounds clutches).length = players.length) ∧
    (rounds.length = 0 →
      calculatePlayerStats players kills damages rounds clutches = []) := by
  constructor
  · intro h
    unfold calculatePlayerStats
    rw [if_neg (by omega)]
    rw [sortByAdrDesc_length, List.length_map]
  · intro h
    unfold calculatePlayerStats
    rw [if_pos h]

/-- A roster with a single player, for the zero-round scenario. -/
def soloPlayer : Player := { steamid := "P1", name := "P1", team := "CT" }

/-- Counterexample to C5 as stated: with zero rounds and one observed player
the aggregator returns no records at all (the Python function returns `[]`
immediately), not one zero-valued record per player. -/
theorem player_stats_zero_rounds_counterexample :
    [soloPlayer].length = 1 ∧
    (calculatePlayerStats [soloPlayer] [] [] [] []).length = 0 := by
  exact ⟨rfl, rfl⟩

/-- Witness for the amended C5: one record per roster entry with a round
present, empty output with zero rounds. -/
theorem player_stats_length_witness :
    (calculatePlayerStats [soloPlayer] clutchKills [] [clutchRound] []).length =
      [soloPlayer].length ∧
    calculatePlayerStats [soloPlayer] [] [] [] [] = [] := by
  have h1 := player_stats_one_record_per_roster_entry [soloPlayer] clutchKills [] [clutchRound] []
  have h2 := player_stats_one_record_per_roster_entry [soloPlayer] [] [] [] []
  exact ⟨h1.1 (by decide), h2.2 rfl⟩

/-- C9.  Every divisor in the per-player metrics is guarded: zero rounds give
`adr = 0` and `kast = 0`, zero kills give `hs_percentage = 0`, zero clutch
attempts give `clutch_rate = 0`, and zero deaths make `kd_value` the kill
count itself (a whole number).  All metric functions are total — no division
error can be raised. -/
theorem player_stats_divisor_guards
    (kills : List Kill) (damages : List Damage) (rounds : List Round)
    (clutches : List Clutch) (p : Player) :
    (rounds.length = 0 →
      (playerStatFor kills damages rounds clutches p).adr = 0 ∧
      (playerStatFor kills damages rounds clutches p).kast = 0) ∧
    ((playerStatFor kills damages rounds clutches p).kills = 0 →
      (playerStatFor kills damages rounds clutches p).hs_percentage = 0) ∧
    ((playerStatFor kills damages rounds clutches p).clutch_attempts = 0 →
      (playerStatFor kills damages rounds clutches p).clutch_rate = 0) ∧
    ((playerStatFor kills damages rounds clutches p).deaths = 0 →
      (playerStatFor kills damages rounds clutches p).kd_value =
        ((playerStatFor kills damages rounds clutches p).kills : ℚ)) := by
  refine ⟨?_, ?_, ?_, ?_⟩
  · intro h
    constructor
    · simp only [playerStatFor]
      rw [if_neg (by omega)]
    · simp only [playerStatFor]
      rw [if_neg (by omega)]
  · intro h
    simp only [playerStatFor] at h ⊢
    rw [if_neg (by omega)]
  · intro h
    simp only [playerStatFor] at h ⊢
    rw [if_neg (by omega)]
  · intro h
    simp only [playerStatFor] at h ⊢
    rw [if_neg (by omega)]

/-- Witness for C9 at the empty match (all four zero-denominator guards fire). -/
theorem player_stats_divisor_guards_witness :
    (playerStatFor [] [] [] [] soloPlayer).adr = 0 ∧
    (playerStatFor [] [] [] [] soloPlayer).kast = 0 ∧
    (playerStatFor [] [] [] [] soloPlayer).hs_percentage = 0 ∧
    (playerStatFor [] [] [] [] soloPlayer).clutch_rate = 0 ∧
    (playerStatFor [] [] [] [] soloPlayer).kd_value =
      ((playerStatFor [] [] [] [] soloPlayer).kills : ℚ) := by
  have h := player_stats_divisor_guards [] [] [] [] soloPlayer
  have h1 := h.1 rfl
  exact ⟨h1.1, h1.2, h.2.1 rfl, h.2.2.1 rfl, h.2.2.2 rfl⟩

/-- C2 (amended).  `kast` is `100 ·  |R| / total_rounds` where `R` is the set
of rounds (each counted once — it is a finite set) in which the player has a
kill, an assist, no death, or a death followed in the same round, strictly
later and within the 320-tick window, by ANY kill whose attacker team is the
player's roster team — the code does not require that kill's victim to be the
player's killer. -/
theorem kast_union_formula
    (kills : List Kill) (damages : List Damage) (rounds : List Round)
    (clutches : List Clutch) (p : Player) :
    (0 < rounds.length →
      (playerStatFor kills damages rounds clutches p).kast =
        ((kastRounds p.team p.steamid kills rounds).card : ℚ) / (rounds.length : ℚ) * 100) ∧
    (∀ r : Int, r ∈ kastRounds p.team p.steamid kills rounds ↔
      (∃ kl ∈ kills, kl.attacker_steamid = p.steamid ∧ kl.round_num = r) ∨
      (∃ kl ∈ kills, kl.assister_steamid = p.steamid ∧ kl.round_num = r) ∨
      ((∃ rnd ∈ rounds, rnd.round_num = r) ∧
        ¬ ∃ kl ∈ kills, kl.victim_steamid = p.steamid ∧ kl.round_num = r) ∨
      (∃ dk ∈ kills, dk.victim_steamid = p.steamid ∧ dk.round_num = r ∧
        ∃ kl ∈ kills, kl.round_num = r ∧ dk.tick < kl.tick ∧
          kl.tick - dk.tick ≤ TRADE_KILL_WINDOW_TICKS ∧ kl.attacker_team = p.team)) := by
  constructor
  · intro h
    simp only [playerStatFor]
    rw [if_pos h]
  · intro r
    simp only [kastRounds, Finset.mem_union, List.mem_toFinset, List.mem_map, List.mem_filter,
      List.any_eq_true, decide_eq_true_eq]
    constructor
    · rintro (((⟨a, ⟨ha, haa⟩, har⟩ | ⟨a, ⟨ha, haa⟩, har⟩) | ⟨a, ⟨ha, hnd⟩, har⟩) |
        ⟨a, ⟨⟨ha, hav⟩, x, hx, hxr, hxt, hxw, hxteam⟩, har⟩)
      · exact Or.inl ⟨a, ha, haa, har⟩
      · exact Or.inr (Or.inl ⟨a, ha, haa, har⟩)
      · refine Or.inr (Or.inr (Or.inl ⟨⟨a, ha, har⟩, ?_⟩))
        rintro ⟨kl, hkl, hklv, hklr⟩
        exact hnd ⟨kl, ⟨hkl, hklv⟩, by rw [hklr, har]⟩
      · exact Or.inr (Or.inr (Or.inr ⟨a, ha, hav, har, x, hx, hxr.trans har, hxt, hxw, hxteam⟩))
    · rintro (⟨kl, hkl, hkla, hklr⟩ | ⟨kl, hkl, hkla, hklr⟩ | ⟨⟨rnd, hrnd, hrr⟩, hnd⟩ |
        ⟨dk, hdk, hdkv, hdkr, kl, hkl, hklr, hklt, hklw, hklteam⟩)
      · exact Or.inl (Or.inl (Or.inl ⟨kl, ⟨hkl, hkla⟩, hklr⟩))
      · exact Or.inl (Or.inl (Or.inr ⟨kl, ⟨hkl, hkla⟩, hklr⟩))
      · refine Or.inl (Or.inr ⟨rnd, ⟨hrnd, ?_⟩, hrr⟩)
        rintro ⟨kl, ⟨hkl, hklv⟩, hklr⟩
        exact hnd ⟨kl, hkl, hklv, by rw [hklr, hrr]⟩
      · exact Or.inr ⟨dk, ⟨⟨hdk, hdkv⟩, kl, hkl, hklr.trans hdkr.symm, hklt, hklw, hklteam⟩, hdkr⟩

/-- Player P (CT) dies at tick 100 to E; P's teammate Q then kills F — not
P's killer — at tick 200, within the window. -/
def p2Kills : List Kill :=
  [ mkKill 0 100 1 "TERRORIST" "E" "CT" "P",
    mkKill 1 200 1 "CT" "Q" "TERRORIST" "F" ]

def p2Round : Round :=
  { round_num := 1, start_tick := 0, end_tick := 500, winner := "CT", reason := "elimination" }

def pPlayer : Player := { steamid := "P", name := "P", team := "CT" }

/-- Counterexample to C2 as stated: the code credits P's round-1 KAST because
a teammate landed ANY kill after P's death within the window — P's killer E
was never killed (the spec's condition, `kastClaimRounds`, is empty), yet the
computed kast is 100, not 0. -/
theorem kast_traded_death_counterexample :
    (calculatePlayerStats [pPlayer] p2Kills [] [p2Round] []).map (·.kast) = [100] ∧
    100 * ((kastClaimRounds "CT" "P" p2Kills [p2Round]).card : ℚ) /
      (([p2Round] : List Round).length : ℚ) = 0 ∧
    (100 : ℚ) ≠ 0 := by
  refine ⟨?_, ?_, by norm_num⟩
  · have hcalc : calculatePlayerStats [pPlayer] p2Kills [] [p2Round] [] =
        [playerStatFor p2Kills [] [p2Round] [] pPlayer] := rfl
    rw [hcalc, List.map_cons, List.map_nil]
    have hk := (kast_union_formula p2Kills [] [p2Round] [] pPlayer).1 (by decide)
    rw [hk]
    have hcard : (kastRounds pPlayer.team pPlayer.steamid p2Kills [p2Round]).card = 1 := by
      decide
    rw [hcard]
    norm_num
  · have hcard : (kastClaimRounds "CT" "P" p2Kills [p2Round]).card = 0 := by decide
    rw [hcard]
    norm_num

/-- Witness for the amended C2 on the concrete round: the kast field equals
the 100·card/total formula, and round 1 is in the KAST set through the
code's traded-death condition even though P's killer was not killed. -/
theorem kast_union_witness :
    (playerStatFor p2Kills [] [p2Round] [] pPlayer).kast =
      ((kastRounds pPlayer.team pPlayer.steamid p2Kills [p2Round]).card : ℚ) /
        (([p2Round] : List Round).length : ℚ) * 100 ∧
    (1 : Int) ∈ kastRounds pPlayer.team pPlayer.steamid p2Kills [p2Round] := by
  have h := kast_union_formula p2Kills [] [p2Round] [] pPlayer
  refine ⟨h.1 (by decide), (h.2 1).mpr ?_⟩
  exact Or.inr (Or.inr (Or.inr ⟨mkKill 0 100 1 "TERRORIST" "E" "CT" "P", by decide, by decide,
    by decide, mkKill 1 200 1 "CT" "Q" "TERRORIST" "F", by decide, by decide, by decide,
    by decide, by decide⟩))
